import Mathlib

/-!
Verification of the qm repository's composite hierarchical identifier model
(`crates/entity/src/ids.rs`), the Owner-reference projections
(`crates/customer/src/model/user.rs`) and the asynchronous cascading cleanup
workflow (`crates/customer/src/worker.rs`).

The Rust code is shallowly embedded: the 12-byte `ObjectId` becomes a `Nat`
(byte-lexicographic order on the fixed-width 12-byte value coincides with
numeric order), strings stay strings, fallible functions return `Except`,
and the worker's effectful run is a writer-plus-error monad recording the
sequence of external operations it performs.
-/

namespace QM

/-! ## Identifier primitives (crates/entity/src/ids.rs) -/

/-- The opaque 12-byte identifier `ID = Arc<ObjectId>`, modelled by its
numeric value (big-endian byte order on a fixed width equals numeric order). -/
abbrev ID := Nat

/-- Parse errors produced by the `FromStr` implementations.  The repository
uses `anyhow` strings; we keep the exact message for the length and
required-field errors produced by the repository's own code and tag the kind. -/
inductive ParseErr where
  | invalidLength (msg : String)
  | required (msg : String)
  | invalidHex
deriving DecidableEq, Repr

/-- Decidable equality on `Except`, so parse results can be checked on
concrete inputs. -/
instance {ε α : Type} [DecidableEq ε] [DecidableEq α] : DecidableEq (Except ε α) :=
  fun x y =>
    match x, y with
    | .ok a, .ok b => decidable_of_iff (a = b) ⟨fun h => by rw [h], fun h => by injection h⟩
    | .ok _, .error _ => isFalse fun h => Except.noConfusion h
    | .error _, .ok _ => isFalse fun h => Except.noConfusion h
    | .error e, .error f =>
      decidable_of_iff (e = f) ⟨fun h => by rw [h], fun h => by injection h⟩

/-- Value of one lowercase hex digit, as accepted by `ObjectId::from_str`. -/
def hexVal (c : Char) : Option Nat :=
  if '0' ≤ c ∧ c ≤ '9' then some (c.toNat - '0'.toNat)
  else if 'a' ≤ c ∧ c ≤ 'f' then some (c.toNat - 'a'.toNat + 10)
  else if 'A' ≤ c ∧ c ≤ 'F' then some (c.toNat - 'A'.toNat + 10)
  else none

/-- Decode a list of hex digits into a number (most significant first). -/
def decodeHex : List Char → Option Nat
  | [] => some 0
  | c :: cs =>
    match hexVal c, decodeHex cs with
    | some d, some n => some (d * 16 ^ cs.length + n)
    | _, _ => none

/-- `ObjectId::from_str`: exactly 24 hex characters decode to a 12-byte id. -/
def ObjectId.fromStr (s : String) : Except ParseErr ID :=
  if s.length = 24 then
    match decodeHex s.data with
    | some n => .ok n
    | none => .error .invalidHex
  else .error .invalidHex

/-- `Nat.digitChar`-based fixed-width lowercase hex rendering: `ObjectId::to_hex`
always produces exactly 24 characters. -/
def toHex24 (n : ID) : String :=
  let ds := Nat.toDigits 16 n
  ⟨List.replicate (24 - ds.length) '0' ++ ds⟩

/-- `EMPTY_ID`: the all-zero 24-character sentinel segment. -/
def EMPTY_ID : String := "000000000000000000000000"

/-- `parse_object_id`: the all-zero sentinel decodes to "absent" (`none`);
anything else is handed to `ObjectId::from_str`. -/
def parse_object_id (s : String) : Except ParseErr (Option ID) :=
  if s = EMPTY_ID then .ok none
  else (ObjectId.fromStr s).map some

/-- Rust byte-slice `&s[a..b]` on an ASCII string. -/
def strSlice (s : String) (a b : Nat) : String :=
  ⟨(s.data.drop a).take (b - a)⟩

/-! ## Composite identifiers.  Field declaration order matches the Rust
structs (which determines the behaviour of `derive(Ord)`). -/

/-- `EntityId`: the loose universal identifier.  Rust declaration order is
`id`, `cid`, `oid`, `iid`. -/
structure EntityId where
  id : Option ID
  cid : Option ID
  oid : Option ID
  iid : Option ID
deriving DecidableEq, Repr

/-- `CustomerId { id }`. -/
structure CustomerId where
  id : ID
deriving DecidableEq, Repr

/-- `CustomerResourceId { id, cid }` (Rust declaration order: `id` first). -/
structure CustomerResourceId where
  id : ID
  cid : ID
deriving DecidableEq, Repr

/-- `OrganizationResourceId { id, cid, oid }`. -/
structure OrganizationResourceId where
  id : ID
  cid : ID
  oid : ID
deriving DecidableEq, Repr

/-- `InstitutionResourceId { id, cid, oid, iid }`. -/
structure InstitutionResourceId where
  id : ID
  cid : ID
  oid : ID
  iid : ID
deriving DecidableEq, Repr

/-- `OrganizationUnitId`: Customer-rooted or Organization-rooted. -/
inductive OrganizationUnitId where
  | Customer (v : CustomerResourceId)
  | Organization (v : OrganizationResourceId)
deriving DecidableEq, Repr

/-- `StrictEntityId { cid, oid, iid, id }` (declaration order: ancestors first). -/
structure StrictEntityId where
  cid : ID
  oid : ID
  iid : ID
  id : ID
deriving DecidableEq, Repr

/-- `OrganizationId` is a type alias of `CustomerResourceId`. -/
abbrev OrganizationId := CustomerResourceId

/-- `InstitutionId` is a type alias of `OrganizationResourceId`. -/
abbrev InstitutionId := OrganizationResourceId

/-! ## FromStr implementations -/

/-- `EntityId::from_str`. -/
def EntityId.fromStr (s : String) : Except ParseErr EntityId :=
  match s.length with
  | 24 => do
    let cid ← parse_object_id (strSlice s 0 24)
    .ok { cid, oid := none, iid := none, id := none }
  | 48 => do
    let cid ← parse_object_id (strSlice s 0 24)
    let oid ← parse_object_id (strSlice s 24 48)
    .ok { cid, oid, iid := none, id := none }
  | 72 => do
    let cid ← parse_object_id (strSlice s 0 24)
    let oid ← parse_object_id (strSlice s 24 48)
    let iid ← parse_object_id (strSlice s 48 72)
    .ok { cid, oid, iid, id := none }
  | 96 => do
    let cid ← parse_object_id (strSlice s 0 24)
    let oid ← parse_object_id (strSlice s 24 48)
    let iid ← parse_object_id (strSlice s 48 72)
    let id ← parse_object_id (strSlice s 72 96)
    .ok { cid, oid, iid, id }
  | _ =>
    .error (.invalidLength "invalid length, EntityId should have 24, 48, 72 or 96 characters")

/-- `EntityId` `ScalarType::to_value`: fixed-width concatenation `cid oid iid id`
with the sentinel substituted for absent fields. -/
def EntityId.toValue (e : EntityId) : String :=
  (e.cid.map toHex24 |>.getD EMPTY_ID)
    ++ (e.oid.map toHex24 |>.getD EMPTY_ID)
    ++ (e.iid.map toHex24 |>.getD EMPTY_ID)
    ++ (e.id.map toHex24 |>.getD EMPTY_ID)

/-- `CustomerId::from_str`. -/
def CustomerId.fromStr (s : String) : Except ParseErr CustomerId :=
  if s.length ≠ 24 then
    .error (.invalidLength "invalid length, CustomerId should have 24 characters")
  else do
    let id ← parse_object_id (strSlice s 0 24)
    match id with
    | some id => .ok { id }
    | none => .error (.required "'id' is required on CustomerId")

/-- `CustomerId` `ScalarType::to_value` / `Display`. -/
def CustomerId.toValue (v : CustomerId) : String := toHex24 v.id

/-- `CustomerResourceId::from_str`. -/
def CustomerResourceId.fromStr (s : String) : Except ParseErr CustomerResourceId :=
  if s.length ≠ 48 then
    .error (.invalidLength "invalid length, CustomerResourceId should have 48 characters")
  else do
    let cid ← parse_object_id (strSlice s 0 24)
    let cid ← match cid with
      | some v => Except.ok v
      | none => Except.error (.required "'cid' is required on CustomerResourceId")
    let id ← parse_object_id (strSlice s 24 48)
    match id with
    | some id => .ok { cid, id }
    | none => .error (.required "'oid' is required on CustomerResourceId")

/-- `CustomerResourceId` `ScalarType::to_value` / `Display for OrganizationId`. -/
def CustomerResourceId.toValue (v : CustomerResourceId) : String :=
  toHex24 v.cid ++ toHex24 v.id

/-- `OrganizationResourceId::from_str`. -/
def OrganizationResourceId.fromStr (s : String) : Except ParseErr OrganizationResourceId :=
  if s.length ≠ 72 then
    .error (.invalidLength "invalid length, OrganizationResourceId should have 72 characters")
  else do
    let cid ← parse_object_id (strSlice s 0 24)
    let cid ← match cid with
      | some v => Except.ok v
      | none => Except.error (.required "'cid' is required on OrganizationResourceId")
    let oid ← parse_object_id (strSlice s 24 48)
    let oid ← match oid with
      | some v => Except.ok v
      | none => Except.error (.required "'oid' is required on OrganizationResourceId")
    let id ← parse_object_id (strSlice s 48 72)
    match id with
    | some id => .ok { cid, oid, id }
    | none => .error (.required "'id' is required on OrganizationResourceId")

/-- `OrganizationResourceId` `ScalarType::to_value` / `Display for InstitutionId`. -/
def OrganizationResourceId.toValue (v : OrganizationResourceId) : String :=
  toHex24 v.cid ++ toHex24 v.oid ++ toHex24 v.id

/-- `InstitutionResourceId::from_str`. -/
def InstitutionResourceId.fromStr (s : String) : Except ParseErr InstitutionResourceId :=
  if s.length ≠ 96 then
    .error (.invalidLength "invalid length, InstitutionResourceId should have 96 characters")
  else do
    let cid ← parse_object_id (strSlice s 0 24)
    let cid ← match cid with
      | some v => Except.ok v
      | none => Except.error (.required "'cid' is required on InstitutionResourceId")
    let oid ← parse_object_id (strSlice s 24 48)
    let oid ← match oid with
      | some v => Except.ok v
      | none => Except.error (.required "'oid' is required on InstitutionResourceId")
    let iid ← parse_object_id (strSlice s 48 72)
    let iid ← match iid with
      | some v => Except.ok v
      | none => Except.error (.required "'iid' is required on InstitutionResourceId")
    let id ← parse_object_id (strSlice s 72 96)
    match id with
    | some id => .ok { cid, oid, iid, id }
    | none => .error (.required "'id' is required on InstitutionResourceId")

/-- `InstitutionResourceId` `ScalarType::to_value`. -/
def InstitutionResourceId.toValue (v : InstitutionResourceId) : String :=
  toHex24 v.cid ++ toHex24 v.oid ++ toHex24 v.iid ++ toHex24 v.id

/-- `OrganizationUnitId::from_str`.  Note: the source's Organization-variant
branch tests `s.len() == 76` while its own error message (and `to_value`)
use 72 characters for that variant. -/
def OrganizationUnitId.fromStr (s : String) : Except ParseErr OrganizationUnitId :=
  if s.length = 76 then do
    let cid ← parse_object_id (strSlice s 0 24)
    let cid ← match cid with
      | some v => Except.ok v
      | none => Except.error (.required "'cid' is required on OrganizationUnitId::Organization")
    let oid ← parse_object_id (strSlice s 24 48)
    let oid ← match oid with
      | some v => Except.ok v
      | none => Except.error (.required "'oid' is required on OrganizationUnitId::Organization")
    let id ← parse_object_id (strSlice s 48 72)
    match id with
    | some id => .ok (.Organization { cid, oid, id })
    | none => .error (.required "'id' is required on OrganizationUnitId::Organization")
  else if s.length = 48 then do
    let cid ← parse_object_id (strSlice s 0 24)
    let cid ← match cid with
      | some v => Except.ok v
      | none => Except.error (.required "'cid' is required on OrganizationUnitId::Customer")
    let id ← parse_object_id (strSlice s 24 48)
    match id with
    | some id => .ok (.Customer { cid, id })
    | none => .error (.required "'id' is required on OrganizationUnitId::Customer")
  else
    .error (.invalidLength "invalid length, OrganizationUnitId should have 48 or 72 characters")

/-- `OrganizationUnitId` `ScalarType::to_value`: delegates to the variant. -/
def OrganizationUnitId.toValue : OrganizationUnitId → String
  | .Customer v => v.toValue
  | .Organization v => v.toValue

/-- `StrictEntityId::from_str`. -/
def StrictEntityId.fromStr (s : String) : Except ParseErr StrictEntityId :=
  if s.length ≠ 96 then
    .error (.invalidLength "invalid length, LongEntityId should have 96 characters")
  else do
    let cid ← parse_object_id (strSlice s 0 24)
    let cid ← match cid with
      | some v => Except.ok v
      | none => Except.error (.required "'cid' is required on StrictEntityId")
    let oid ← parse_object_id (strSlice s 24 48)
    let oid ← match oid with
      | some v => Except.ok v
      | none => Except.error (.required "'oid' is required on StrictEntityId")
    let iid ← parse_object_id (strSlice s 48 72)
    let iid ← match iid with
      | some v => Except.ok v
      | none => Except.error (.required "'iid' is required on StrictEntityId")
    let id ← parse_object_id (strSlice s 72 96)
    match id with
    | some id => .ok { cid, oid, iid, id }
    | none => .error (.required "'id' is required on StrictEntityId")

/-! ## Projections on `EntityId` (impl EntityId in ids.rs) -/

/-- `EntityId::as_customer_id`. -/
def EntityId.as_customer_id (e : EntityId) : Option CustomerId :=
  e.id.map (fun id => { id })

/-- `EntityId::as_organization_id`. -/
def EntityId.as_organization_id (e : EntityId) : Option OrganizationId :=
  match e.cid, e.id with
  | some cid, some id => some { cid, id }
  | _, _ => none

/-- `EntityId::as_organization_unit_id`. -/
def EntityId.as_organization_unit_id (e : EntityId) : Option OrganizationUnitId :=
  match e.oid with
  | some oid =>
    match e.cid, e.id with
    | some cid, some id => some (.Organization { cid, oid, id })
    | _, _ => none
  | none =>
    match e.cid, e.id with
    | some cid, some id => some (.Customer { cid, id })
    | _, _ => none

/-- `EntityId::as_institution_id`. -/
def EntityId.as_institution_id (e : EntityId) : Option InstitutionId :=
  match e.cid, e.oid, e.id with
  | some cid, some oid, some id => some { cid, oid, id }
  | _, _, _ => none

/-! ## Infallible conversions `From<EntityId>` (ids.rs lines 589-620).
`unwrap_or_default()` falls back to the `Default` of the external
`bson::oid::ObjectId`, and that impl is `Self::new()`: a freshly generated
(timestamp + random) identifier, not the all-zero one. The generator is
external state, so each `unwrap_or_default()` call site takes the value
`ObjectId::new()` would produce there as an explicit oracle argument. -/

/-- `From<EntityId> for CustomerId`: `value.id.unwrap_or_default()`, with
`freshId` the identifier `ObjectId::new()` generates at this call site. -/
def CustomerId.fromEntityId (freshId : ID) (e : EntityId) : CustomerId :=
  { id := e.id.getD freshId }

/-- `From<EntityId> for OrganizationId`: `unwrap_or_default()` on `cid` and
`id`, each call site with its own generated identifier. -/
def OrganizationId.fromEntityId (freshCid freshId : ID) (e : EntityId) : OrganizationId :=
  { cid := e.cid.getD freshCid, id := e.id.getD freshId }

/-- `From<EntityId> for InstitutionId`: `unwrap_or_default()` on `cid`, `oid`
and `id`, each call site with its own generated identifier. -/
def InstitutionId.fromEntityId (freshCid freshOid freshId : ID) (e : EntityId) : InstitutionId :=
  { cid := e.cid.getD freshCid, oid := e.oid.getD freshOid, id := e.id.getD freshId }

/-! ## Owner reference (crates/customer/src/model/user.rs) -/

/-- `Owner`: the level a dependent record is anchored at, plus its loose id. -/
inductive Owner where
  | Customer (e : EntityId)
  | Organization (e : EntityId)
  | Institution (e : EntityId)
  | OrganizationUnit (e : EntityId)
deriving DecidableEq, Repr

/-- The embedded `EntityId` of an `Owner` (serde content field `entityId`). -/
def Owner.entityId : Owner → EntityId
  | .Customer e => e
  | .Organization e => e
  | .Institution e => e
  | .OrganizationUnit e => e

/-- `Owner::customer`. -/
def Owner.customer (o : Owner) : Option CustomerId :=
  match o with
  | .Customer { cid := some cid, .. } => some { id := cid }
  | .Organization { cid := some cid, .. } => some { id := cid }
  | .OrganizationUnit { cid := some cid, .. } => some { id := cid }
  | .Institution { cid := some cid, .. } => some { id := cid }
  | _ => none

/-- `Owner::organization`. -/
def Owner.organization (o : Owner) : Option OrganizationId :=
  match o with
  | .Organization { cid := some cid, oid := some oid, .. } =>
    some { cid, id := oid }
  | .OrganizationUnit { cid := some cid, oid := some oid, .. } =>
    some { cid, id := oid }
  | .Institution { cid := some cid, oid := some oid, .. } =>
    some { cid, id := oid }
  | _ => none

/-- `Owner::organization_unit`. -/
def Owner.organization_unit (o : Owner) : Option OrganizationUnitId :=
  match o with
  | .OrganizationUnit { cid := some cid, oid := some oid, iid := some iid, .. } =>
    some (.Organization { id := iid, oid, cid })
  | .OrganizationUnit { cid := some cid, oid := none, iid := some iid, .. } =>
    some (.Customer { id := iid, cid })
  | _ => none

/-- `Owner::institution`. -/
def Owner.institution (o : Owner) : Option InstitutionId :=
  match o with
  | .Institution { cid := some cid, oid := some oid, iid := some iid, .. } =>
    some { cid, oid, id := iid }
  | _ => none

/-! ## Derived total orders.  Rust `derive(Ord)` compares fields in
declaration order; `Ord` on `ObjectId` is byte-lexicographic, which for the
fixed-width 12-byte value is numeric order; `Ord` on `Option` puts `None`
below `Some`. -/

/-- Numeric comparison mirroring `Ord for ObjectId`. -/
def cmpN (a b : Nat) : Ordering :=
  if a < b then .lt else if a = b then .eq else .gt

/-- `Ord for Option<T>`: `None < Some`. -/
def cmpOpt (a b : Option Nat) : Ordering :=
  match a, b with
  | none, none => .eq
  | none, some _ => .lt
  | some _, none => .gt
  | some x, some y => cmpN x y

/-- `derive(Ord)` for `EntityId` (declaration order `id, cid, oid, iid`). -/
def EntityId.cmp (a b : EntityId) : Ordering :=
  (cmpOpt a.id b.id).then
    ((cmpOpt a.cid b.cid).then
      ((cmpOpt a.oid b.oid).then (cmpOpt a.iid b.iid)))

/-- `derive(Ord)` for `CustomerResourceId` (declaration order `id, cid`). -/
def CustomerResourceId.cmp (a b : CustomerResourceId) : Ordering :=
  (cmpN a.id b.id).then (cmpN a.cid b.cid)

/-- `derive(Ord)` for `OrganizationResourceId` (declaration order `id, cid, oid`). -/
def OrganizationResourceId.cmp (a b : OrganizationResourceId) : Ordering :=
  (cmpN a.id b.id).then ((cmpN a.cid b.cid).then (cmpN a.oid b.oid))

/-- `derive(Ord)` for `InstitutionResourceId` (declaration order `id, cid, oid, iid`). -/
def InstitutionResourceId.cmp (a b : InstitutionResourceId) : Ordering :=
  (cmpN a.id b.id).then
    ((cmpN a.cid b.cid).then ((cmpN a.oid b.oid).then (cmpN a.iid b.iid)))

/-- The spec's claimed comparison for `CustomerResourceId`: ancestor (`cid`)
first, then the node's own id.  Stated from the spec's words, for comparison
with the derived order actually implemented. -/
def CustomerResourceId.cmpAncestorFirst (a b : CustomerResourceId) : Ordering :=
  (cmpN a.cid b.cid).then (cmpN a.id b.id)

/-- A comparison function is a total order: `eq` means equality, swapping the
arguments swaps the verdict, and strict precedence is transitive. -/
def IsTotalCmp {α : Type} (cmp : α → α → Ordering) : Prop :=
  (∀ a b, cmp a b = .eq ↔ a = b)
    ∧ (∀ a b, (cmp a b).swap = cmp b a)
    ∧ (∀ a b c, cmp a b = .lt → cmp b c = .lt → cmp a c = .lt)

/-- Lexicographic combination of two comparison functions on a product. -/
def prodCmp {α β : Type} (f : α → α → Ordering) (g : β → β → Ordering)
    (x y : α × β) : Ordering :=
  (f x.1 y.1).then (g x.2 y.2)


/-! ## Cleanup workflow engine (crates/customer/src/worker.rs).

Each external call of a cleanup run is recorded as an `Op`; the environment
assigns every call its outcome (`Except Err _`, `Err` being the `anyhow`
error).  A run is a value of `M α := Except Err α × List Op`: the result and
the ordered trace of operations attempted before the run finished or
aborted. -/

/-- `anyhow::Error`, modelled as its message. -/
abbrev Err := String

/-- A document-store query value: `{"$in": ids}` or a literal array (the
`doc! { "cid": &cids }` form used by `cleanup_organization_units`, which has
no `$in`). -/
inductive QVal where
  | inSet (ids : List Nat)
  | arrEq (ids : List Nat)
deriving DecidableEq, Repr

/-- A `bson::Document` used as a query: ordered key/value pairs. -/
abbrev Query := List (String × QVal)

/-- `qm_kafka::producer::EventNs` variants used by the worker. -/
inductive EvNs where
  | customer
  | organization
  | institution
  | organizationUnit
deriving DecidableEq, Repr

/-- `StrictOrganizationId { cid, oid }` (worker task payload). -/
structure StrictOrganizationId where
  cid : ID
  oid : ID
deriving DecidableEq, Repr

/-- `Display for StrictOrganizationId`. -/
def StrictOrganizationId.display (v : StrictOrganizationId) : String :=
  toHex24 v.cid ++ toHex24 v.oid

/-- `StrictInstitutionId { cid, oid, iid }` (worker task payload). -/
structure StrictInstitutionId where
  cid : ID
  oid : ID
  iid : ID
deriving DecidableEq, Repr

/-- `Display for StrictInstitutionId`. -/
def StrictInstitutionId.display (v : StrictInstitutionId) : String :=
  toHex24 v.cid ++ toHex24 v.oid ++ toHex24 v.iid

/-- `StrictOrganizationUnitId { cid, oid: Option, uid }` (worker task payload). -/
structure StrictOrganizationUnitId where
  cid : ID
  oid : Option ID
  uid : ID
deriving DecidableEq, Repr

/-- The deleted-id payload passed to `delete_event`, one shape per call site. -/
inductive Payload where
  | customers (ids : List Nat)
  | cids (ids : List Nat)
  | institutions (ids : List StrictInstitutionId)
  | orgUnits (ids : List StrictOrganizationUnitId)
deriving DecidableEq, Repr

/-- One external operation performed by a cleanup run. -/
inductive Op where
  | session
  | listCollections
  | find (coll : String) (q : Query)
  | deleteMany (coll : String) (q : Query)
  | pullMembers (cid oid iid : Nat)
  | cleanupRoles (roles : List String)
  | reloadUsers
  | reloadCustomer
  | deleteEvent (ns : EvNs) (coll : String) (payload : Payload)
  | complete
deriving DecidableEq, Repr

/-- The run monad: result plus ordered trace of attempted operations (the
trace survives an abort, mirroring that already-issued calls happened). -/
def M (α : Type) : Type := Except Err α × List Op

/-- Monadic bind: an error short-circuits, traces concatenate. -/
def M.bind {α β : Type} (x : M α) (f : α → M β) : M β :=
  match x with
  | (.error e, t) => (.error e, t)
  | (.ok a, t) => ((f a).1, t ++ (f a).2)

instance : Monad M where
  pure a := (.ok a, [])
  bind := M.bind

/-- Record one operation. -/
def M.emit (op : Op) : M Unit := (.ok (), [op])

/-- Lift an environment-provided call result. -/
def M.liftE {α : Type} (x : Except Err α) : M α := (x, [])

/-- The storage collaborators (`RelatedStorage`): collection names and the
outcome the environment assigns to each external call. -/
structure StoreEnv where
  usersCollection : String
  customerCollection : String
  organizationCollection : String
  institutionCollection : String
  organizationUnitCollection : String
  sessionRes : Except Err Unit
  collectionsRes : Except Err (List String)
  orgUnitFindRes : Query → Except Err (List (Except Err EntityId))
  orgFindRes : Query → Except Err (List (Except Err EntityId))
  instFindRes : Query → Except Err (List (Except Err EntityId))
  deleteManyRes : String → Query → Except Err Nat
  deleteUsersRes : Query → Except Err Nat
  updateOrgUnitsRes : StrictInstitutionId → Except Err Unit
  cleanupRolesRes : List String → Except Err Unit
  reloadUsersRes : Except Err Unit
  reloadCustomerRes : Except Err Unit
  hasProducer : Bool
  deleteEventRes : EvNs → String → Payload → Except Err Unit

/-- The worker context: storage plus the acknowledge (`worker_ctx.complete`)
outcome, which lives on the queue transport, not the store. -/
structure Env where
  store : StoreEnv
  completeRes : Except Err Unit

/-- `BTreeSet<String>::insert`: ordered insertion without duplicates. -/
def btreeInsert (x : String) : List String → List String
  | [] => [x]
  | y :: ys =>
    if x < y then x :: y :: ys
    else if x = y then y :: ys
    else y :: btreeInsert x ys

/-- Modelled from the spec: `qm_role::Access::new(level).with_fmt_id(id)`
(crate `qm-role`, not under `src/`); §6 gives the role-name contract
`<level>:<id-chain>`, the id chain being the formatted id when present. -/
def roleAccess (level : String) (idStr : Option String) : String :=
  level ++ ":" ++ idStr.getD ""

/-- One step of the `extend_roles` stream loop: a deserialization failure is
skipped (`if let Ok(v) = v`), a document's callback roles are inserted. -/
def extendRolesStep (cb : EntityId → Except Err (List String))
    (rs : List String) (item : Except Err EntityId) : M (List String) :=
  match item with
  | .error _ => pure rs
  | .ok v => do
    let new ← M.liftE (cb v)
    pure (new.foldl (fun acc r => btreeInsert r acc) rs)

/-- `extend_roles`: stream the documents matching `query`, skip items that
fail to deserialize, and insert the callback's role strings into the set. -/
def extend_roles (find : Query → Except Err (List (Except Err EntityId)))
    (coll : String) (roles : List String) (query : Query)
    (cb : EntityId → Except Err (List String)) : M (List String) := do
  M.emit (.find coll query)
  let items ← M.liftE (find query)
  items.foldlM (extendRolesStep cb) roles

/-- `remove_documents`: `delete_many_with_session` on one collection. -/
def remove_documents (s : StoreEnv) (collection : String) (query : Query) : M Nat := do
  M.emit (.deleteMany collection query)
  M.liftE (s.deleteManyRes collection query)

/-- `remove_users` rewrites every query key `k` to `owner.entityId.k`. -/
def rewriteUserQuery (q : Query) : Query :=
  q.map (fun kv => ("owner.entityId." ++ kv.1, kv.2))

/-- `remove_users`: delete from the users collection with the rewritten query. -/
def remove_users (s : StoreEnv) (query : Query) : M Nat := do
  M.emit (.deleteMany s.usersCollection (rewriteUserQuery query))
  M.liftE (s.deleteUsersRes (rewriteUserQuery query))

/-- `update_organization_units`: pull the member entry `(cid, oid, iid)` from
every Organization Unit whose members list matches `cid`/`oid` — a targeted
`$pull` partial update. -/
def update_organization_units (s : StoreEnv) (v : StrictInstitutionId) : M Unit := do
  M.emit (.pullMembers v.cid v.oid v.iid)
  M.liftE (s.updateOrgUnitsRes v)

/-- The per-collection sweep loop shared by customers/organizations/
institutions cleanup: users get the rewritten owner query, every other
collection the direct query. -/
def sweepCollections (s : StoreEnv) (query : Query) : List String → M Unit
  | [] => pure ()
  | c :: rest => do
    let _ ← if c = s.usersCollection
      then remove_users s query
      else remove_documents s c query
    sweepCollections s query rest

/-- `try_collect` on a fallible stream: any item error aborts. -/
def tryCollect {α : Type} : List (Except Err α) → Except Err (List α)
  | [] => .ok []
  | x :: xs => do
    let v ← x
    let vs ← tryCollect xs
    .ok (v :: vs)

/-- Modelled from the spec: `TryFrom<Institution> for StrictInstitutionId`
(the `Institution` model is not under `src/`); a task id is strict, so the
conversion needs the document's `cid`, `oid` and its own id, which becomes
the strict `iid`. -/
def institutionTryIntoStrict (e : EntityId) : Option StrictInstitutionId :=
  match e.cid, e.oid, e.id with
  | some c, some o, some i => some ⟨c, o, i⟩
  | _, _, _ => none

/-- `doc! { "cid": { "$in": ids } }` of `cleanup_customers`. -/
def customersQuery (cids : List Nat) : Query := [("cid", .inSet cids)]

/-- The `cid`/`oid` `$in` query of `cleanup_organizations`
(`select_ids` projects the named field of each strict id). -/
def organizationsQuery (oids : List StrictOrganizationId) : Query :=
  [("cid", .inSet (oids.map (·.cid))), ("oid", .inSet (oids.map (·.oid)))]

/-- The `cid`/`oid`/`iid` `$in` query of `cleanup_institutions`. -/
def institutionsQuery (iids : List StrictInstitutionId) : Query :=
  [("cid", .inSet (iids.map (·.cid))), ("oid", .inSet (iids.map (·.oid))),
    ("iid", .inSet (iids.map (·.iid)))]

/-- The query of `cleanup_organization_units`: literal arrays (no `$in`), and
the value bound to the `"oid"` key is the `Uid` (unit id) selection. -/
def organizationUnitsQuery (uids : List StrictOrganizationUnitId) : Query :=
  [("cid", .arrEq (uids.map (·.cid))), ("oid", .arrEq (uids.map (·.uid)))]

/-- The pull loop of `cleanup_organizations` over the found institutions. -/
def pullAll (s : StoreEnv) : List StrictInstitutionId → M Unit
  | [] => pure ()
  | v :: rest => do
    update_organization_units s v
    pullAll s rest

/-- The seed-role-then-pull loop of `cleanup_institutions`. -/
def rolesAndPulls (s : StoreEnv) : List StrictInstitutionId → List String → M (List String)
  | [], roles => pure roles
  | v :: rest, roles => do
    update_organization_units s v
    rolesAndPulls s rest (btreeInsert (roleAccess "institution" (some v.display)) roles)

/-! ## Trace predicates and pure mirrors used to state the workflow claims -/

/-- Is this operation a document deletion? -/
def isDelete : Op → Bool
  | .deleteMany _ _ => true
  | _ => false

/-- Is this operation an Organization Unit member pull? -/
def isPull : Op → Bool
  | .pullMembers _ _ _ => true
  | _ => false

/-- Is this operation a deletion-event publish? -/
def isEvent : Op → Bool
  | .deleteEvent _ _ _ => true
  | _ => false

/-- Every operation in the trace of `m` satisfies `p`. -/
abbrev TraceAll (p : Op → Prop) {α : Type} (m : M α) : Prop :=
  ∀ op ∈ m.2, p op

/-- The trace splits into a delete-free prefix and a pull-free suffix: every
member pull happens before the first bulk deletion. -/
def PullsBeforeDeletes (t : List Op) : Prop :=
  ∃ t₁ t₂, t = t₁ ++ t₂
    ∧ (∀ op ∈ t₁, isDelete op = false)
    ∧ (∀ op ∈ t₂, isPull op = false)

/-- The deletion operations the per-collection sweep performs, one per
collection: the users collection with the rewritten owner query, every other
collection with the direct query. -/
def sweepTrace (s : StoreEnv) (q : Query) (cs : List String) : List Op :=
  cs.map fun c =>
    if c = s.usersCollection
      then .deleteMany s.usersCollection (rewriteUserQuery q)
      else .deleteMany c q

/-- The role set `extend_roles` computes from a successfully fetched stream. -/
def extendRolesPure (items : List (Except Err EntityId)) (roles : List String)
    (cb : EntityId → List String) : List String :=
  items.foldl
    (fun rs item =>
      match item with
      | .error _ => rs
      | .ok v => (cb v).foldl (fun acc r => btreeInsert r acc) rs)
    roles

/-- The role set the `cleanup_institutions` seed loop computes. -/
def rolesAndPullsPure (iids : List StrictInstitutionId) (roles : List String) : List String :=
  iids.foldl
    (fun rs v => btreeInsert (roleAccess "institution" (some v.display)) rs) roles

/-- A fully successful store environment for the spec's cascade scenario:
customer 10 owns organization 20, institution 30 lives under it, one user is
owned at institution level, and the store also holds an unrelated collection
`"foo"`. -/
def cexStore : StoreEnv where
  usersCollection := "users"
  customerCollection := "customers"
  organizationCollection := "organizations"
  institutionCollection := "institutions"
  organizationUnitCollection := "organization_units"
  sessionRes := .ok ()
  collectionsRes :=
    .ok ["customers", "organizations", "institutions", "organization_units", "users", "foo"]
  orgUnitFindRes := fun _ => .ok []
  orgFindRes := fun _ => .ok [.ok ⟨some 20, some 10, none, none⟩]
  instFindRes := fun _ => .ok [.ok ⟨some 30, some 10, some 20, none⟩]
  deleteManyRes := fun _ _ => .ok 1
  deleteUsersRes := fun _ => .ok 1
  updateOrgUnitsRes := fun _ => .ok ()
  cleanupRolesRes := fun _ => .ok ()
  reloadUsersRes := .ok ()
  reloadCustomerRes := .ok ()
  hasProducer := true
  deleteEventRes := fun _ _ _ => .ok ()

/-- The scenario environment with a successful acknowledge. -/
def cexEnv : Env := ⟨cexStore, .ok ()⟩

/-- The scenario environment with a failing session open, for the abort case. -/
def cexFailEnv : Env := ⟨{ cexStore with sessionRes := .error "session failed" }, .ok ()⟩

/-- The role string the Organization Unit scan adds per matching document. -/
def ouRoleCb (v : EntityId) : List String :=
  [roleAccess "organization_unit" (v.as_organization_unit_id.map OrganizationUnitId.toValue)]

/-- The role string the Organization scan adds per matching document. -/
def orgRoleCb (v : EntityId) : List String :=
  [roleAccess "organization" (v.as_organization_id.map CustomerResourceId.toValue)]

/-- The role string the Institution scan adds per matching document. -/
def instRoleCb (v : EntityId) : List String :=
  [roleAccess "institution" (v.as_institution_id.map OrganizationResourceId.toValue)]

/-- The seed roles of `cleanup_customers`: one customer-level access entry
per deleted id. -/
def customersSeed (cids : List Nat) : List String :=
  cids.foldl (fun acc cid => btreeInsert (roleAccess "customer" (some (toHex24 cid))) acc) []

/-- The full role set a successful `cleanup_customers` run revokes. -/
def customersRoles (cids : List Nat) (l1 l2 l3 : List (Except Err EntityId)) : List String :=
  extendRolesPure l3
    (extendRolesPure l2 (extendRolesPure l1 (customersSeed cids) ouRoleCb) orgRoleCb)
    instRoleCb

/-- The seed roles of `cleanup_organizations`. -/
def organizationsSeed (oids : List StrictOrganizationId) : List String :=
  oids.foldl (fun acc v => btreeInsert (roleAccess "organization" (some v.display)) acc) []

/-- The full role set a successful `cleanup_organizations` run revokes. -/
def organizationsRoles (oids : List StrictOrganizationId)
    (l1 : List (Except Err EntityId)) : List String :=
  extendRolesPure l1 (organizationsSeed oids) ouRoleCb

/-- The seed roles of `cleanup_organization_units`. -/
def orgUnitsSeed (uids : List StrictOrganizationUnitId) : List String :=
  uids.foldl
    (fun acc id =>
      let ouid : OrganizationUnitId :=
        match id.oid with
        | some oid => .Organization ⟨id.uid, id.cid, oid⟩
        | none => .Customer ⟨id.uid, id.cid⟩
      btreeInsert (roleAccess "organization_unit" (some ouid.toValue)) acc) []

/-- `cleanup_customers`, everything before the acknowledge. -/
def cleanup_customers_pre (s : StoreEnv) (cids : List Nat) : M Unit := do
  M.emit .session
  let _ ← M.liftE s.sessionRes
  let roles := customersSeed cids
  let query := customersQuery cids
  let roles ← extend_roles s.orgUnitFindRes s.organizationUnitCollection roles query
    (fun v => Except.ok (ouRoleCb v))
  let roles ← extend_roles s.orgFindRes s.organizationCollection roles query
    (fun v => Except.ok (orgRoleCb v))
  let roles ← extend_roles s.instFindRes s.institutionCollection roles query
    (fun v => Except.ok (instRoleCb v))
  M.emit .listCollections
  let colls ← M.liftE s.collectionsRes
  sweepCollections s query colls
  M.emit (.cleanupRoles roles)
  let _ ← M.liftE (s.cleanupRolesRes roles)
  M.emit .reloadUsers
  let _ ← M.liftE s.reloadUsersRes
  M.emit .reloadCustomer
  let _ ← M.liftE s.reloadCustomerRes
  if s.hasProducer then
    M.emit (.deleteEvent .customer s.customerCollection (.customers cids))
    let _ ← M.liftE (s.deleteEventRes .customer s.customerCollection (.customers cids))

/-- `cleanup_customers`: the run, ending with the acknowledge. -/
def cleanup_customers (env : Env) (cids : List Nat) : M Unit := do
  cleanup_customers_pre env.store cids
  M.emit .complete
  M.liftE env.completeRes

/-- `cleanup_organizations`, everything before the acknowledge. -/
def cleanup_organizations_pre (s : StoreEnv) (oids : List StrictOrganizationId) : M Unit := do
  M.emit .session
  let _ ← M.liftE s.sessionRes
  let roles := organizationsSeed oids
  let query := organizationsQuery oids
  M.emit (.find s.institutionCollection query)
  let items ← M.liftE (s.instFindRes query)
  let insts ← M.liftE (tryCollect items)
  let institution_ids := insts.filterMap institutionTryIntoStrict
  pullAll s institution_ids
  let roles ← extend_roles s.orgUnitFindRes s.organizationUnitCollection roles query
    (fun v => Except.ok (ouRoleCb v))
  M.emit .listCollections
  let colls ← M.liftE s.collectionsRes
  sweepCollections s query colls
  M.emit (.cleanupRoles roles)
  let _ ← M.liftE (s.cleanupRolesRes roles)
  M.emit .reloadUsers
  let _ ← M.liftE s.reloadUsersRes
  M.emit .reloadCustomer
  let _ ← M.liftE s.reloadCustomerRes
  if s.hasProducer then
    M.emit (.deleteEvent .organization s.organizationCollection
      (.cids (oids.map (·.cid))))
    let _ ← M.liftE (s.deleteEventRes .organization s.organizationCollection
      (.cids (oids.map (·.cid))))

/-- `cleanup_organizations`: the run, ending with the acknowledge. -/
def cleanup_organizations (env : Env) (oids : List StrictOrganizationId) : M Unit := do
  cleanup_organizations_pre env.store oids
  M.emit .complete
  M.liftE env.completeRes

/-- `cleanup_institutions`, everything before the acknowledge. -/
def cleanup_institutions_pre (s : StoreEnv) (iids : List StrictInstitutionId) : M Unit := do
  M.emit .session
  let _ ← M.liftE s.sessionRes
  let roles ← rolesAndPulls s iids []
  let query := institutionsQuery iids
  M.emit .listCollections
  let colls ← M.liftE s.collectionsRes
  sweepCollections s query colls
  M.emit (.cleanupRoles roles)
  let _ ← M.liftE (s.cleanupRolesRes roles)
  M.emit .reloadUsers
  let _ ← M.liftE s.reloadUsersRes
  M.emit .reloadCustomer
  let _ ← M.liftE s.reloadCustomerRes
  if s.hasProducer then
    M.emit (.deleteEvent .institution s.institutionCollection (.institutions iids))
    let _ ← M.liftE (s.deleteEventRes .institution s.institutionCollection
      (.institutions iids))

/-- `cleanup_institutions`: the run, ending with the acknowledge. -/
def cleanup_institutions (env : Env) (iids : List StrictInstitutionId) : M Unit := do
  cleanup_institutions_pre env.store iids
  M.emit .complete
  M.liftE env.completeRes

/-- `cleanup_organization_units`, everything before the acknowledge.  Note:
no collection enumeration — only `remove_users` runs. -/
def cleanup_organization_units_pre (s : StoreEnv)
    (uids : List StrictOrganizationUnitId) : M Unit := do
  M.emit .session
  let _ ← M.liftE s.sessionRes
  let roles := orgUnitsSeed uids
  let query := organizationUnitsQuery uids
  let _ ← remove_users s query
  M.emit (.cleanupRoles roles)
  let _ ← M.liftE (s.cleanupRolesRes roles)
  M.emit .reloadUsers
  let _ ← M.liftE s.reloadUsersRes
  M.emit .reloadCustomer
  let _ ← M.liftE s.reloadCustomerRes
  if s.hasProducer then
    M.emit (.deleteEvent .organizationUnit s.organizationUnitCollection (.orgUnits uids))
    let _ ← M.liftE (s.deleteEventRes .organizationUnit s.organizationUnitCollection
      (.orgUnits uids))

/-- `cleanup_organization_units`: the run, ending with the acknowledge. -/
def cleanup_organization_units (env : Env) (uids : List StrictOrganizationUnitId) : M Unit := do
  cleanup_organization_units_pre env.store uids
  M.emit .complete
  M.liftE env.completeRes

/-- `CleanupTaskType` (crate `qm-customer`'s `cleanup` module; variants as
dispatched by `CleanupWorker::run`). -/
inductive CleanupTaskType where
  | Customers (ids : List Nat)
  | Organizations (ids : List StrictOrganizationId)
  | Institutions (ids : List StrictInstitutionId)
  | OrganizationUnits (ids : List StrictOrganizationUnitId)
  | None
deriving DecidableEq, Repr

/-- `CleanupTask { id, ty }` (the task id is an opaque `Uuid`). -/
structure CleanupTask where
  id : Nat
  ty : CleanupTaskType

/-- `CleanupWorker::run`: dispatch on the task type; the `None` variant is a
no-op that only acknowledges. -/
def CleanupWorker.run (env : Env) (task : CleanupTask) : M Unit :=
  match task.ty with
  | .Customers ids => cleanup_customers env ids
  | .Organizations ids => cleanup_organizations env ids
  | .Institutions ids => cleanup_institutions env ids
  | .OrganizationUnits ids => cleanup_organization_units env ids
  | .None => do
    M.emit .complete
    M.liftE env.completeRes

/-! ## Total-order helper lemmas -/

lemma cmpN_lt_iff (a b : Nat) : cmpN a b = .lt ↔ a < b := by
  unfold cmpN
  split_ifs with h1 h2
  · simp [h1]
  · rw [h2]; simp
  · simp [h1]

lemma cmpN_eq_iff (a b : Nat) : cmpN a b = .eq ↔ a = b := by
  unfold cmpN
  split_ifs with h1 h2
  · simp; omega
  · simp [h2]
  · simp [h2]

lemma cmpN_gt_iff (a b : Nat) : cmpN a b = .gt ↔ b < a := by
  unfold cmpN
  split_ifs with h1 h2
  · simp; omega
  · rw [h2]; simp
  · simp; omega

lemma cmpN_swap (a b : Nat) : (cmpN a b).swap = cmpN b a := by
  rcases Nat.lt_trichotomy a b with h | h | h
  · rw [(cmpN_lt_iff a b).mpr h, (cmpN_gt_iff b a).mpr h]; rfl
  · rw [(cmpN_eq_iff a b).mpr h, (cmpN_eq_iff b a).mpr h.symm]; rfl
  · rw [(cmpN_gt_iff a b).mpr h, (cmpN_lt_iff b a).mpr h]; rfl

lemma cmpN_lt_trans {a b c : Nat} (h₁ : cmpN a b = .lt) (h₂ : cmpN b c = .lt) :
    cmpN a c = .lt := by
  rw [cmpN_lt_iff] at h₁ h₂ ⊢
  omega

lemma thenLtLeft (x : Ordering) : Ordering.lt.then x = .lt := rfl

lemma thenEqLeft (x : Ordering) : Ordering.eq.then x = x := rfl

lemma thenGtLeft (x : Ordering) : Ordering.gt.then x = .gt := rfl

lemma thenEqEq {x y : Ordering} : x.then y = .eq ↔ x = .eq ∧ y = .eq := by
  cases x <;> simp [Ordering.then]

lemma cmpN_total : IsTotalCmp cmpN :=
  ⟨cmpN_eq_iff, cmpN_swap, fun _ _ _ => cmpN_lt_trans⟩

lemma cmpOpt_total : IsTotalCmp cmpOpt := by
  refine ⟨?_, ?_, ?_⟩
  · rintro (_ | a) (_ | b) <;> simp [cmpOpt, cmpN_eq_iff]
  · rintro (_ | a) (_ | b) <;> first | rfl | exact cmpN_swap _ _
  · rintro (_ | a) (_ | b) (_ | c) h₁ h₂ <;>
      simp only [cmpOpt] at h₁ h₂ ⊢ <;>
      first
        | rfl
        | exact absurd h₁ (by decide)
        | exact absurd h₂ (by decide)
        | exact cmpN_lt_trans h₁ h₂

lemma IsTotalCmp.prod {α β : Type} {f : α → α → Ordering} {g : β → β → Ordering}
    (hf : IsTotalCmp f) (hg : IsTotalCmp g) : IsTotalCmp (prodCmp f g) := by
  obtain ⟨hfe, hfs, hft⟩ := hf
  obtain ⟨hge, hgs, hgt⟩ := hg
  refine ⟨?_, ?_, ?_⟩
  · rintro ⟨a₁, a₂⟩ ⟨b₁, b₂⟩
    simp only [prodCmp, thenEqEq, hfe, hge, Prod.mk.injEq]
  · rintro ⟨a₁, a₂⟩ ⟨b₁, b₂⟩
    simp only [prodCmp]
    rw [← hfs a₁ b₁, ← hgs a₂ b₂]
    cases f a₁ b₁ <;> cases g a₂ b₂ <;> rfl
  · rintro ⟨a₁, a₂⟩ ⟨b₁, b₂⟩ ⟨c₁, c₂⟩ h₁ h₂
    simp only [prodCmp] at h₁ h₂ ⊢
    cases hab : f a₁ b₁ <;> rw [hab] at h₁ <;> cases hbc : f b₁ c₁ <;> rw [hbc] at h₂
    · rw [hft _ _ _ hab hbc, thenLtLeft]
    · have e : b₁ = c₁ := (hfe _ _).mp hbc
      subst e
      rw [hab, thenLtLeft]
    · rw [thenGtLeft] at h₂
      exact absurd h₂ (by decide)
    · have e : a₁ = b₁ := (hfe _ _).mp hab
      subst e
      rw [hbc, thenLtLeft]
    · have e : a₁ = b₁ := (hfe _ _).mp hab
      have e2 : b₁ = c₁ := (hfe _ _).mp hbc
      subst e; subst e2
      rw [thenEqLeft] at h₁ h₂
      rw [(hfe _ _).mpr rfl, thenEqLeft]
      exact hgt _ _ _ h₁ h₂
    · rw [thenGtLeft] at h₂
      exact absurd h₂ (by decide)
    · rw [thenGtLeft] at h₁
      exact absurd h₁ (by decide)
    · rw [thenGtLeft] at h₁
      exact absurd h₁ (by decide)
    · rw [thenGtLeft] at h₁
      exact absurd h₁ (by decide)

lemma IsTotalCmp.ofInj {α β : Type} {cmpA : α → α → Ordering}
    {cmpB : β → β → Ordering} (e : α → β) (he : Function.Injective e)
    (hB : IsTotalCmp cmpB) (hc : ∀ a b, cmpA a b = cmpB (e a) (e b)) :
    IsTotalCmp cmpA := by
  obtain ⟨hbe, hbs, hbt⟩ := hB
  refine ⟨?_, ?_, ?_⟩
  · intro a b
    rw [hc, hbe]
    exact ⟨(fun h => he h), (fun h => by rw [h])⟩
  · intro a b
    rw [hc, hc, hbs]
  · intro a b c h₁ h₂
    rw [hc] at h₁ h₂ ⊢
    exact hbt _ _ _ h₁ h₂

lemma entityId_cmp_eq_prod (a b : EntityId) :
    EntityId.cmp a b =
      prodCmp cmpOpt (prodCmp cmpOpt (prodCmp cmpOpt cmpOpt))
        (a.id, a.cid, a.oid, a.iid) (b.id, b.cid, b.oid, b.iid) := rfl

lemma customerResourceId_cmp_eq_prod (a b : CustomerResourceId) :
    CustomerResourceId.cmp a b = prodCmp cmpN cmpN (a.id, a.cid) (b.id, b.cid) := rfl

lemma organizationResourceId_cmp_eq_prod (a b : OrganizationResourceId) :
    OrganizationResourceId.cmp a b =
      prodCmp cmpN (prodCmp cmpN cmpN) (a.id, a.cid, a.oid) (b.id, b.cid, b.oid) := rfl

lemma toHex24_zero : toHex24 0 = EMPTY_ID := by decide

/-! ## Claim theorems: identifier model -/

/-- C3: the spec claims `parse(format(x)) == x` for every composite id type and
that `OrganizationUnitId` parsing accepts exactly lengths 48 and 72.  The code
violates this for the Organization variant: `to_value` emits 72 characters and
the error message names "48 or 72", but `from_str` tests `len == 76`, so the
formatter's own output is rejected while 76-character strings (whose last four
characters are ignored, even non-hex garbage) are accepted.  This theorem
evaluates the code at the failing input. -/
theorem orgunit_parse_rejects_own_format :
    (OrganizationUnitId.toValue (.Organization ⟨3, 1, 2⟩)).length = 72
      ∧ OrganizationUnitId.fromStr (OrganizationUnitId.toValue (.Organization ⟨3, 1, 2⟩))
          = .error (.invalidLength
              "invalid length, OrganizationUnitId should have 48 or 72 characters")
      ∧ OrganizationUnitId.fromStr
            (OrganizationUnitId.toValue (.Organization ⟨3, 1, 2⟩) ++ "zzzz")
          = .ok (.Organization ⟨3, 1, 2⟩)
      ∧ OrganizationUnitId.fromStr (OrganizationUnitId.toValue (.Customer ⟨3, 1⟩))
          = .ok (.Customer ⟨3, 1⟩) := by
  refine ⟨by decide, by decide, by decide, by decide⟩

/-- C7: parsing a string whose length is not in the type's valid set returns a
length error naming the valid set (`EntityId`: 24/48/72/96, `CustomerId`: 24,
`CustomerResourceId`: 48, `OrganizationResourceId`: 72,
`InstitutionResourceId` and `StrictEntityId`: 96); at each valid length the
parser accepts well-formed input. -/
theorem parse_length_validation :
    (∀ s : String, ¬(s.length = 24 ∨ s.length = 48 ∨ s.length = 72 ∨ s.length = 96) →
        EntityId.fromStr s = .error (.invalidLength
          "invalid length, EntityId should have 24, 48, 72 or 96 characters"))
    ∧ (∀ s : String, s.length ≠ 24 → CustomerId.fromStr s = .error (.invalidLength
          "invalid length, CustomerId should have 24 characters"))
    ∧ (∀ s : String, s.length ≠ 48 → CustomerResourceId.fromStr s = .error (.invalidLength
          "invalid length, CustomerResourceId should have 48 characters"))
    ∧ (∀ s : String, s.length ≠ 72 → OrganizationResourceId.fromStr s = .error (.invalidLength
          "invalid length, OrganizationResourceId should have 72 characters"))
    ∧ (∀ s : String, s.length ≠ 96 → InstitutionResourceId.fromStr s = .error (.invalidLength
          "invalid length, InstitutionResourceId should have 96 characters"))
    ∧ (∀ s : String, s.length ≠ 96 → StrictEntityId.fromStr s = .error (.invalidLength
          "invalid length, LongEntityId should have 96 characters"))
    ∧ EntityId.fromStr (toHex24 1) = .ok ⟨none, some 1, none, none⟩
    ∧ EntityId.fromStr (toHex24 1 ++ toHex24 2) = .ok ⟨none, some 1, some 2, none⟩
    ∧ EntityId.fromStr (toHex24 1 ++ toHex24 2 ++ toHex24 3)
        = .ok ⟨none, some 1, some 2, some 3⟩
    ∧ EntityId.fromStr (toHex24 1 ++ toHex24 2 ++ toHex24 3 ++ toHex24 4)
        = .ok ⟨some 4, some 1, some 2, some 3⟩
    ∧ CustomerId.fromStr (toHex24 7) = .ok ⟨7⟩
    ∧ CustomerResourceId.fromStr (toHex24 1 ++ toHex24 2) = .ok ⟨2, 1⟩
    ∧ OrganizationResourceId.fromStr (toHex24 1 ++ toHex24 2 ++ toHex24 3) = .ok ⟨3, 1, 2⟩
    ∧ InstitutionResourceId.fromStr (toHex24 1 ++ toHex24 2 ++ toHex24 3 ++ toHex24 4)
        = .ok ⟨4, 1, 2, 3⟩
    ∧ StrictEntityId.fromStr (toHex24 1 ++ toHex24 2 ++ toHex24 3 ++ toHex24 4)
        = .ok ⟨1, 2, 3, 4⟩ := by
  refine ⟨?_, ?_, ?_, ?_, ?_, ?_, by decide, by decide, by decide, by decide,
    by decide, by decide, by decide, by decide, by decide⟩
  · intro s h
    unfold EntityId.fromStr
    split <;> first | rfl | (exfalso; exact h (by omega))
  · intro s h
    simp [CustomerId.fromStr, h]
  · intro s h
    simp [CustomerResourceId.fromStr, h]
  · intro s h
    simp [OrganizationResourceId.fromStr, h]
  · intro s h
    simp [InstitutionResourceId.fromStr, h]
  · intro s h
    simp [StrictEntityId.fromStr, h]

/-- C7 witness: the spec's own example, a 50-character string for
`CustomerResourceId`, discharged through the theorem. -/
theorem parse_length_validation_witness :
    (String.mk (List.replicate 50 'a')).length ≠ 48
      ∧ CustomerResourceId.fromStr (String.mk (List.replicate 50 'a'))
          = .error (.invalidLength
              "invalid length, CustomerResourceId should have 48 characters") :=
  ⟨by decide, parse_length_validation.2.2.1 (String.mk (List.replicate 50 'a')) (by decide)⟩

/-- C8 (counterexample): the claim says parsing the all-zero 24-character
string as a `CustomerId` succeeds with the zero-valued id; in the code it is
rejected with a required-field error. -/
theorem all_zero_customer_id_rejected :
    CustomerId.fromStr EMPTY_ID = .error (.required "'id' is required on CustomerId") := by
  decide

/-- C8 (amended): the segment parser treats the all-zero sentinel as "absent"
for every target type; only `EntityId`, whose fields are optional, accepts it
(as `none`), while every other type then fails with a required-field error —
an all-zero segment is never decoded as a literal zero-valued id. -/
theorem all_zero_sentinel_absent_everywhere :
    EntityId.fromStr EMPTY_ID = .ok ⟨none, none, none, none⟩
      ∧ EntityId.fromStr (EMPTY_ID ++ EMPTY_ID ++ EMPTY_ID ++ EMPTY_ID)
          = .ok ⟨none, none, none, none⟩
      ∧ CustomerId.fromStr EMPTY_ID = .error (.required "'id' is required on CustomerId")
      ∧ CustomerResourceId.fromStr (EMPTY_ID ++ EMPTY_ID)
          = .error (.required "'cid' is required on CustomerResourceId")
      ∧ CustomerResourceId.fromStr (toHex24 1 ++ EMPTY_ID)
          = .error (.required "'oid' is required on CustomerResourceId")
      ∧ OrganizationResourceId.fromStr (EMPTY_ID ++ EMPTY_ID ++ EMPTY_ID)
          = .error (.required "'cid' is required on OrganizationResourceId")
      ∧ InstitutionResourceId.fromStr (EMPTY_ID ++ EMPTY_ID ++ EMPTY_ID ++ EMPTY_ID)
          = .error (.required "'cid' is required on InstitutionResourceId")
      ∧ StrictEntityId.fromStr (EMPTY_ID ++ EMPTY_ID ++ EMPTY_ID ++ EMPTY_ID)
          = .error (.required "'cid' is required on StrictEntityId") := by
  refine ⟨by decide, by decide, by decide, by decide, by decide, by decide,
    by decide, by decide⟩

/-- C9 (counterexample): the claim says composite ids compare ancestors
(`cid`) first; the derived order on `CustomerResourceId` compares the node's
own `id` first, so the two orders disagree on a concrete pair. -/
theorem derived_order_not_ancestor_first :
    CustomerResourceId.cmp ⟨1, 2⟩ ⟨2, 1⟩ = .lt
      ∧ CustomerResourceId.cmpAncestorFirst ⟨1, 2⟩ ⟨2, 1⟩ = .gt := by
  refine ⟨by decide, by decide⟩

/-- C9 (amended): every composite id type implements a total order, but it is
the derived lexicographic order on declaration order, which compares the
node's own `id` first and only then the ancestor fields `cid`, `oid`, `iid`. -/
theorem derived_order_total_self_id_first :
    IsTotalCmp EntityId.cmp
      ∧ IsTotalCmp CustomerResourceId.cmp
      ∧ IsTotalCmp OrganizationResourceId.cmp
      ∧ (∀ a b : CustomerResourceId, a.id < b.id → CustomerResourceId.cmp a b = .lt)
      ∧ (∀ a b : OrganizationResourceId, a.id < b.id → OrganizationResourceId.cmp a b = .lt)
      ∧ (∀ a b : EntityId, cmpOpt a.id b.id = .lt → EntityId.cmp a b = .lt) := by
  refine ⟨?_, ?_, ?_, ?_, ?_, ?_⟩
  · refine IsTotalCmp.ofInj (fun v => (v.id, v.cid, v.oid, v.iid)) ?_
      ((cmpOpt_total.prod (cmpOpt_total.prod (cmpOpt_total.prod cmpOpt_total))))
      entityId_cmp_eq_prod
    intro a b h
    cases a
    cases b
    simpa using h
  · refine IsTotalCmp.ofInj (fun v => (v.id, v.cid)) ?_
      (cmpN_total.prod cmpN_total) customerResourceId_cmp_eq_prod
    intro a b h
    cases a
    cases b
    simpa using h
  · refine IsTotalCmp.ofInj (fun v => (v.id, v.cid, v.oid)) ?_
      (cmpN_total.prod (cmpN_total.prod cmpN_total)) organizationResourceId_cmp_eq_prod
    intro a b h
    cases a
    cases b
    simpa using h
  · intro a b h
    unfold CustomerResourceId.cmp
    rw [(cmpN_lt_iff _ _).mpr h, thenLtLeft]
  · intro a b h
    unfold OrganizationResourceId.cmp
    rw [(cmpN_lt_iff _ _).mpr h, thenLtLeft]
  · intro a b h
    unfold EntityId.cmp
    rw [h, thenLtLeft]

/-- C9 witness: the amended theorem applied at a concrete pair where the
smaller own-id wins despite the larger ancestor id. -/
theorem derived_order_total_self_id_first_witness :
    (1 : Nat) < 2 ∧ CustomerResourceId.cmp ⟨1, 5⟩ ⟨2, 3⟩ = .lt :=
  ⟨by decide, derived_order_total_self_id_first.2.2.2.1 ⟨1, 5⟩ ⟨2, 3⟩ (by decide)⟩

/-- C10 (counterexample): the claim says a missing field is substituted by the
default all-zero identifier, leaving zero-valued segments in the composite id.
But `Default` for the external `bson::oid::ObjectId` is `Self::new()`, a
freshly generated identifier: when the generator yields the (nonzero) value 5
for the missing `cid`, converting a loose id carrying only `id = 7` produces
`cid = 5`, not `0`, and the serialized form carries no all-zero sentinel
segment. -/
theorem from_entity_id_fresh_not_zero :
    (OrganizationId.fromEntityId 5 9 ⟨some 7, none, none, none⟩).cid = 5
      ∧ (OrganizationId.fromEntityId 5 9 ⟨some 7, none, none, none⟩).cid ≠ 0
      ∧ (OrganizationId.fromEntityId 5 9 ⟨some 7, none, none, none⟩).toValue
          = toHex24 5 ++ toHex24 7
      ∧ (OrganizationId.fromEntityId 5 9 ⟨some 7, none, none, none⟩).toValue
          ≠ EMPTY_ID ++ toHex24 7 := by
  refine ⟨rfl, by decide, rfl, by decide⟩

/-- C10 (amended): the `From<EntityId>` conversions into `CustomerId`,
`OrganizationId` and `InstitutionId` are total functions and never fail:
fields that are present are copied unchanged, and any missing required field
is silently replaced by the identifier freshly generated by `ObjectId::new()`
(the `Default` of the external id type) at that `unwrap_or_default()` call
site - whatever value the generator produced, not the all-zero sentinel. -/
theorem from_entity_id_total_fresh_default :
    ∀ (f g k : ID) (e : EntityId),
      (∀ v, e.id = some v → CustomerId.fromEntityId f e = ⟨v⟩)
      ∧ (e.id = none → CustomerId.fromEntityId f e = ⟨f⟩)
      ∧ (∀ c i, e.cid = some c → e.id = some i → OrganizationId.fromEntityId f g e = ⟨i, c⟩)
      ∧ (e.cid = none → (OrganizationId.fromEntityId f g e).cid = f
          ∧ (OrganizationId.fromEntityId f g e).toValue
              = toHex24 f ++ toHex24 (e.id.getD g))
      ∧ (∀ c o i, e.cid = some c → e.oid = some o → e.id = some i →
          InstitutionId.fromEntityId f g k e = ⟨i, c, o⟩)
      ∧ (e.cid = none → e.oid = none →
          (InstitutionId.fromEntityId f g k e).toValue
            = toHex24 f ++ (toHex24 g ++ toHex24 (e.id.getD k))) := by
  intro f g k e
  refine ⟨?_, ?_, ?_, ?_, ?_, ?_⟩
  · intro v h
    simp [CustomerId.fromEntityId, h]
  · intro h
    simp [CustomerId.fromEntityId, h]
  · intro c i hc hi
    simp [OrganizationId.fromEntityId, hc, hi]
  · intro h
    refine ⟨by simp [OrganizationId.fromEntityId, h], ?_⟩
    simp [OrganizationId.fromEntityId, CustomerResourceId.toValue, h]
  · intro c o i hc ho hi
    simp [InstitutionId.fromEntityId, hc, ho, hi]
  · intro hc ho
    simp [InstitutionId.fromEntityId, OrganizationResourceId.toValue, hc, ho,
      String.append_assoc]

/-- C10 witness: the amended theorem applied with generator outputs (5, 6, 7)
to a loose id carrying only `id = 9`: the present field is copied, and the
missing `cid` segment serializes as the generated identifier 5. -/
theorem from_entity_id_total_fresh_default_witness :
    CustomerId.fromEntityId 5 ⟨some 9, none, none, none⟩ = ⟨9⟩
      ∧ (OrganizationId.fromEntityId 5 6 ⟨some 9, none, none, none⟩).toValue
          = toHex24 5 ++ toHex24 9 :=
  ⟨(from_entity_id_total_fresh_default 5 6 7 ⟨some 9, none, none, none⟩).1 9 rfl,
    ((from_entity_id_total_fresh_default 5 6 7 ⟨some 9, none, none, none⟩).2.2.2.1 rfl).2⟩

/-- C6 (counterexample): the claim says a projection returns `Some` exactly
when every field required by the requested level is present in the embedded
`EntityId`; but `Owner::Customer` with `cid` and `oid` both present still has
`organization() == None`, because projections are additionally gated on the
`Owner` variant. -/
theorem owner_projection_variant_gated :
    ((⟨none, some 1, some 2, none⟩ : EntityId)).cid.isSome = true
      ∧ ((⟨none, some 1, some 2, none⟩ : EntityId)).oid.isSome = true
      ∧ Owner.organization (.Customer ⟨none, some 1, some 2, none⟩) = none := by
  refine ⟨by decide, by decide, by decide⟩

/-- C6 (amended): each Owner projection is a total, side-effect-free function
that never fabricates missing fields; it returns `Some` exactly when the
Owner's variant admits the requested level (customer: every variant;
organization: Organization / OrganizationUnit / Institution; institution:
only Institution; organization unit: only OrganizationUnit) and every field
required by that level is present.  In particular
`Owner::Customer(EntityId{cid: None, ..}).customer()` is `None`, and a fully
populated `Owner::Institution` projects `organization()` to the
`OrganizationId` built from `(cid, oid)`. -/
theorem owner_projection_characterization :
    (∀ o : Owner, (o.customer).isSome = (o.entityId).cid.isSome)
      ∧ (∀ o : Owner, o.customer = (o.entityId).cid.map (fun c => ⟨c⟩))
      ∧ (∀ e : EntityId, (Owner.Customer e).organization = none)
      ∧ (∀ e : EntityId, (Owner.Organization e).organization.isSome
            = ((e.cid).isSome && (e.oid).isSome))
      ∧ (∀ e : EntityId, (Owner.OrganizationUnit e).organization.isSome
            = ((e.cid).isSome && (e.oid).isSome))
      ∧ (∀ e : EntityId, (Owner.Institution e).organization.isSome
            = ((e.cid).isSome && (e.oid).isSome))
      ∧ (∀ e : EntityId, (Owner.Customer e).institution = none)
      ∧ (∀ e : EntityId, (Owner.Organization e).institution = none)
      ∧ (∀ e : EntityId, (Owner.OrganizationUnit e).institution = none)
      ∧ (∀ e : EntityId, (Owner.Institution e).institution.isSome
            = ((e.cid).isSome && (e.oid).isSome && (e.iid).isSome))
      ∧ (∀ e : EntityId, (Owner.Customer e).organization_unit = none)
      ∧ (∀ e : EntityId, (Owner.Organization e).organization_unit = none)
      ∧ (∀ e : EntityId, (Owner.Institution e).organization_unit = none)
      ∧ (∀ e : EntityId, (Owner.OrganizationUnit e).organization_unit.isSome
            = ((e.cid).isSome && (e.iid).isSome))
      ∧ (∀ x y z, (Owner.Customer ⟨x, none, y, z⟩).customer = none)
      ∧ (∀ c o i x, (Owner.Institution ⟨x, some c, some o, i⟩).organization
            = some ⟨o, c⟩) := by
  refine ⟨?_, ?_, ?_, ?_, ?_, ?_, ?_, ?_, ?_, ?_, ?_, ?_, ?_, ?_, ?_, ?_⟩
  · rintro (⟨_, (_ | c), _, _⟩ | ⟨_, (_ | c), _, _⟩ | ⟨_, (_ | c), _, _⟩ |
      ⟨_, (_ | c), _, _⟩) <;> rfl
  · rintro (⟨_, (_ | c), _, _⟩ | ⟨_, (_ | c), _, _⟩ | ⟨_, (_ | c), _, _⟩ |
      ⟨_, (_ | c), _, _⟩) <;> rfl
  · intro e; rfl
  · rintro ⟨_, (_ | c), (_ | o), _⟩ <;> rfl
  · rintro ⟨_, (_ | c), (_ | o), _⟩ <;> rfl
  · rintro ⟨_, (_ | c), (_ | o), _⟩ <;> rfl
  · intro e; rfl
  · intro e; rfl
  · intro e; rfl
  · rintro ⟨_, (_ | c), (_ | o), (_ | i)⟩ <;> rfl
  · intro e; rfl
  · intro e; rfl
  · intro e; rfl
  · rintro ⟨_, (_ | c), (_ | o), (_ | i)⟩ <;> rfl
  · intro x y z; rfl
  · intro c o i x; rfl

/-! ## Run-monad and trace lemmas -/


lemma M.fst_emit (op : Op) : (M.emit op).1 = .ok () := rfl

lemma M.snd_emit (op : Op) : (M.emit op).2 = [op] := rfl

lemma M.fst_liftE {α : Type} (x : Except Err α) : (M.liftE x).1 = x := rfl

lemma M.snd_liftE {α : Type} (x : Except Err α) : (M.liftE x).2 = [] := rfl

lemma M.fst_pure {α : Type} (a : α) : (pure a : M α).1 = .ok a := rfl

lemma M.snd_pure {α : Type} (a : α) : (pure a : M α).2 = [] := rfl

lemma M.fst_bind {α β : Type} (x : M α) (f : α → M β) :
    (x >>= f).1 = match x.1 with | .error e => .error e | .ok a => (f a).1 := by
  rcases x with ⟨(e | a), t⟩ <;> rfl

lemma M.snd_bind {α β : Type} (x : M α) (f : α → M β) :
    (x >>= f).2 = x.2 ++ (match x.1 with | .error _ => [] | .ok a => (f a).2) := by
  rcases x with ⟨(e | a), t⟩ <;> simp [Bind.bind, M.bind]

lemma M.mem_snd_bind {α β : Type} {op : Op} {x : M α} {f : α → M β} :
    op ∈ (x >>= f).2 ↔ op ∈ x.2 ∨ ∃ a, x.1 = .ok a ∧ op ∈ (f a).2 := by
  rcases x with ⟨(e | a), t⟩ <;> simp [Bind.bind, M.bind]

lemma M.fst_bind_ok {α β : Type} {x : M α} {f : α → M β} {b : β} :
    (x >>= f).1 = .ok b ↔ ∃ a, x.1 = .ok a ∧ (f a).1 = .ok b := by
  rcases x with ⟨(e | a), t⟩ <;> simp [Bind.bind, M.bind]

lemma traceAll_bind {p : Op → Prop} {α β : Type} {x : M α} {f : α → M β}
    (hx : TraceAll p x) (hf : ∀ a, TraceAll p (f a)) : TraceAll p (x >>= f) := by
  intro op hop
  rw [M.mem_snd_bind] at hop
  rcases hop with h | ⟨a, _, h⟩
  exacts [hx _ h, hf a _ h]

lemma traceAll_emit {p : Op → Prop} {op : Op} (h : p op) : TraceAll p (M.emit op) := by
  intro o ho
  simp [M.emit] at ho
  subst ho
  exact h

lemma traceAll_liftE {p : Op → Prop} {α : Type} {x : Except Err α} :
    TraceAll p (M.liftE x) := fun _ ho => nomatch ho

lemma traceAll_pure {p : Op → Prop} {α : Type} {a : α} :
    TraceAll p (pure a : M α) := fun _ ho => nomatch ho

lemma traceAll_ite {p : Op → Prop} {α : Type} (c : Prop) [Decidable c] {x y : M α}
    (hx : TraceAll p x) (hy : TraceAll p y) : TraceAll p (if c then x else y) := by
  split <;> assumption

lemma traceAll_remove_documents {p : Op → Prop} {s : StoreEnv} {c : String} {q : Query}
    (h : p (.deleteMany c q)) : TraceAll p (remove_documents s c q) :=
  traceAll_bind (traceAll_emit h) fun _ => traceAll_liftE

lemma traceAll_remove_users {p : Op → Prop} {s : StoreEnv} {q : Query}
    (h : p (.deleteMany s.usersCollection (rewriteUserQuery q))) :
    TraceAll p (remove_users s q) :=
  traceAll_bind (traceAll_emit h) fun _ => traceAll_liftE

lemma traceAll_update_organization_units {p : Op → Prop} {s : StoreEnv}
    {v : StrictInstitutionId} (h : p (.pullMembers v.cid v.oid v.iid)) :
    TraceAll p (update_organization_units s v) :=
  traceAll_bind (traceAll_emit h) fun _ => traceAll_liftE

lemma traceAll_sweep {p : Op → Prop} {s : StoreEnv} {q : Query}
    (hd : ∀ c qq, p (.deleteMany c qq)) :
    ∀ cs, TraceAll p (sweepCollections s q cs) := by
  intro cs
  induction cs with
  | nil => exact traceAll_pure
  | cons c rest ih =>
    simp only [sweepCollections]
    refine traceAll_ite (c = s.usersCollection) ?_ ?_
    · exact traceAll_bind (traceAll_remove_users (hd _ _)) fun _ => ih
    · exact traceAll_bind (traceAll_remove_documents (hd _ _)) fun _ => ih

lemma traceAll_foldlM {p : Op → Prop} {β γ : Type} (f : β → γ → M β)
    (hf : ∀ b a, TraceAll p (f b a)) :
    ∀ (l : List γ) (b : β), TraceAll p (List.foldlM f b l) := by
  intro l
  induction l with
  | nil => intro b; exact traceAll_pure
  | cons x xs ih =>
    intro b
    show TraceAll p (f b x >>= fun b2 => List.foldlM f b2 xs)
    exact traceAll_bind (hf b x) fun b2 => ih b2

lemma traceAll_extend_roles {p : Op → Prop}
    {find : Query → Except Err (List (Except Err EntityId))} {coll : String}
    {roles : List String} {q : Query} {cb : EntityId → Except Err (List String)}
    (h : p (.find coll q)) : TraceAll p (extend_roles find coll roles q cb) := by
  refine traceAll_bind (traceAll_emit h) fun _ => traceAll_bind traceAll_liftE fun items => ?_
  refine traceAll_foldlM _ (fun b a => ?_) items roles
  rcases a with e | v
  · exact traceAll_pure
  · exact traceAll_bind traceAll_liftE fun _ => traceAll_pure

lemma traceAll_pullAll {p : Op → Prop} {s : StoreEnv}
    (h : ∀ a b c, p (.pullMembers a b c)) :
    ∀ l, TraceAll p (pullAll s l) := by
  intro l
  induction l with
  | nil => exact traceAll_pure
  | cons v rest ih =>
    exact traceAll_bind (traceAll_update_organization_units (h _ _ _)) fun _ => ih

lemma traceAll_rolesAndPulls {p : Op → Prop} {s : StoreEnv}
    (h : ∀ a b c, p (.pullMembers a b c)) :
    ∀ l roles, TraceAll p (rolesAndPulls s l roles) := by
  intro l
  induction l with
  | nil => intro roles; exact traceAll_pure
  | cons v rest ih =>
    intro roles
    exact traceAll_bind (traceAll_update_organization_units (h _ _ _)) fun _ => ih _



lemma pbd_of_noPull {t : List Op} (h : ∀ op ∈ t, isPull op = false) :
    PullsBeforeDeletes t :=
  ⟨[], t, rfl, (fun _ h2 => nomatch h2), h⟩

lemma pbd_bind {α β : Type} {x : M α} {f : α → M β}
    (hx : TraceAll (fun op => isDelete op = false) x)
    (hf : ∀ a, PullsBeforeDeletes (f a).2) : PullsBeforeDeletes (x >>= f).2 := by
  rcases hr : x.1 with e | a
  all_goals rw [M.snd_bind]
  all_goals simp only [hr]
  · exact ⟨x.2, [], by simp, hx, fun _ h => nomatch h⟩
  · obtain ⟨t₁, t₂, ht, h₁, h₂⟩ := hf a
    refine ⟨x.2 ++ t₁, t₂, ?_, ?_, h₂⟩
    · rw [ht, List.append_assoc]
    · intro op hop
      rcases List.mem_append.mp hop with h | h
      exacts [hx _ h, h₁ _ h]

lemma pbd_index {t : List Op} (h : PullsBeforeDeletes t) :
    ∀ i j (hi : i < t.length) (hj : j < t.length),
      isPull (t.get ⟨i, hi⟩) = true → isDelete (t.get ⟨j, hj⟩) = true → i < j := by
  obtain ⟨t₁, t₂, rfl, h₁, h₂⟩ := h
  intro i j hi hj hp hd
  rw [List.get_eq_getElem] at hp hd
  have hi2 : i < t₁.length := by
    by_contra hcon
    push_neg at hcon
    rw [List.getElem_append_right hcon] at hp
    have hmem := List.getElem_mem (l := t₂) (show i - t₁.length < t₂.length by
      rw [List.length_append] at hi; omega)
    rw [h₂ _ hmem] at hp
    exact Bool.noConfusion hp
  have hj2 : t₁.length ≤ j := by
    by_contra hcon
    push_neg at hcon
    rw [List.getElem_append_left hcon] at hd
    have hmem := List.getElem_mem (l := t₁) hcon
    rw [h₁ _ hmem] at hd
    exact Bool.noConfusion hd
  omega

lemma ack_shape (m : M Unit) (c : Except Err Unit) (hm : Op.complete ∉ m.2) :
    (Op.complete ∈ (m >>= fun _ => M.emit .complete >>= fun _ => M.liftE c).2
        ↔ m.1 = .ok ())
    ∧ ((m >>= fun _ => M.emit .complete >>= fun _ => M.liftE (Except.ok ())).1 = .ok ()
        ↔ m.1 = .ok ())
    ∧ (m.1 ≠ .ok () →
        (∃ e, (m >>= fun _ => M.emit .complete >>= fun _ => M.liftE c).1 = .error e)
          ∧ Op.complete ∉ (m >>= fun _ => M.emit .complete >>= fun _ => M.liftE c).2) := by
  rcases m with ⟨e | a, t⟩
  · refine ⟨?_, ?_, ?_⟩
    · simp_all [Bind.bind, M.bind]
    · simp [Bind.bind, M.bind]
    · intro _
      refine ⟨⟨e, rfl⟩, ?_⟩
      exact hm
  · cases a
    refine ⟨?_, ?_, ?_⟩
    · simp [Bind.bind, M.bind, M.emit, M.liftE]
    · simp [Bind.bind, M.bind, M.emit, M.liftE]
    · intro hcon
      exact absurd rfl hcon

lemma except_isOk_exists {α : Type} {x : Except Err α} (h : x.isOk = true) :
    ∃ a, x = .ok a := by
  cases x with
  | error e => exact absurd h (by simp [Except.isOk, Except.toBool])
  | ok a => exact ⟨a, rfl⟩

lemma M.bind_eq_ok {α β : Type} {x : M α} {a : α} {t : List Op} (hx : x = (.ok a, t))
    (f : α → M β) : (x >>= f) = ((f a).1, t ++ (f a).2) := by
  subst hx
  rfl

lemma M.bind_eq_error {α β : Type} {x : M α} {e : Err} {t : List Op}
    (hx : x = (.error e, t)) (f : α → M β) : (x >>= f) = (.error e, t) := by
  subst hx
  rfl

lemma remove_users_eq (s : StoreEnv) (q : Query) :
    remove_users s q
      = (s.deleteUsersRes (rewriteUserQuery q),
          [.deleteMany s.usersCollection (rewriteUserQuery q)]) := rfl

lemma remove_documents_eq (s : StoreEnv) (c : String) (q : Query) :
    remove_documents s c q = (s.deleteManyRes c q, [.deleteMany c q]) := rfl

lemma sweep_ok {s : StoreEnv} {q : Query}
    (hdm : ∀ c qq, (s.deleteManyRes c qq).isOk = true)
    (hdu : ∀ qq, (s.deleteUsersRes qq).isOk = true) :
    ∀ cs, sweepCollections s q cs = (.ok (), sweepTrace s q cs) := by
  intro cs
  induction cs with
  | nil => rfl
  | cons c rest ih =>
    by_cases hc : c = s.usersCollection
    · obtain ⟨n, hn⟩ := except_isOk_exists (hdu (rewriteUserQuery q))
      simp only [sweepCollections, sweepTrace, List.map_cons, if_pos hc]
      rw [M.bind_eq_ok (show remove_users s q
        = (.ok n, [.deleteMany s.usersCollection (rewriteUserQuery q)]) from by
          rw [remove_users_eq, hn]), ih]
      simp [sweepTrace]
    · obtain ⟨n, hn⟩ := except_isOk_exists (hdm c q)
      simp only [sweepCollections, sweepTrace, List.map_cons, if_neg hc]
      rw [M.bind_eq_ok (show remove_documents s c q
        = (.ok n, [.deleteMany c q]) from by rw [remove_documents_eq, hn]), ih]
      simp [sweepTrace]


/-! ## Run characterization under a fully successful environment -/


lemma M.bind_eq {α β : Type} (x : M α) (f : α → M β) : x >>= f = M.bind x f := rfl

lemma M.bind_ok {α β : Type} (a : α) (t : List Op) (f : α → M β) :
    M.bind (.ok a, t) f = ((f a).1, t ++ (f a).2) := rfl

lemma M.bind_error {α β : Type} (e : Err) (t : List Op) (f : α → M β) :
    M.bind (.error e, t) f = (.error e, t) := rfl

lemma M.emit_eq (op : Op) : M.emit op = (.ok (), [op]) := rfl

lemma M.liftE_eq {α : Type} (x : Except Err α) : M.liftE x = (x, []) := rfl

lemma M.pure_eq {α : Type} (a : α) : (pure a : M α) = (.ok a, []) := rfl

lemma extend_roles_fold (g : EntityId → List String) :
    ∀ (items : List (Except Err EntityId)) (roles : List String),
      List.foldlM (extendRolesStep (fun v => Except.ok (g v))) roles items
        = (.ok (extendRolesPure items roles g), []) := by
  intro items
  induction items with
  | nil => intro roles; rfl
  | cons x xs ih =>
    intro roles
    rcases x with e | v
    · simp only [List.foldlM, extendRolesStep, extendRolesPure, List.foldl_cons,
        M.bind_eq, M.pure_eq, M.bind_ok, List.nil_append]
      simp only [extendRolesPure] at ih
      rw [ih]
    · simp only [List.foldlM, extendRolesStep, extendRolesPure, List.foldl_cons,
        M.bind_eq, M.pure_eq, M.liftE_eq, M.bind_ok, List.nil_append]
      simp only [extendRolesPure] at ih
      rw [ih]

lemma extend_roles_eq {find : Query → Except Err (List (Except Err EntityId))}
    {coll : String} {q : Query} {items : List (Except Err EntityId)}
    (g : EntityId → List String) (hf : find q = .ok items) :
    ∀ roles, extend_roles find coll roles q (fun v => Except.ok (g v))
      = (.ok (extendRolesPure items roles g), [.find coll q]) := by
  intro roles
  simp only [extend_roles, M.bind_eq, M.emit_eq, M.liftE_eq, hf, M.bind_ok,
    extend_roles_fold g, List.nil_append, List.append_nil]

lemma pullAll_ok {s : StoreEnv} (hu : ∀ v, s.updateOrgUnitsRes v = .ok ()) :
    ∀ l, pullAll s l = (.ok (), l.map (fun v => Op.pullMembers v.cid v.oid v.iid)) := by
  intro l
  induction l with
  | nil => rfl
  | cons v rest ih =>
    simp only [pullAll, update_organization_units, List.map_cons, M.bind_eq, M.emit_eq,
      M.liftE_eq, hu, M.bind_ok, ih, List.nil_append, List.append_nil]
    rfl

lemma rolesAndPulls_ok {s : StoreEnv} (hu : ∀ v, s.updateOrgUnitsRes v = .ok ()) :
    ∀ l roles, rolesAndPulls s l roles
      = (.ok (rolesAndPullsPure l roles),
          l.map (fun v => Op.pullMembers v.cid v.oid v.iid)) := by
  intro l
  induction l with
  | nil => intro roles; rfl
  | cons v rest ih =>
    intro roles
    simp only [rolesAndPulls, rolesAndPullsPure, List.foldl_cons, update_organization_units,
      List.map_cons, M.bind_eq, M.emit_eq, M.liftE_eq, hu, M.bind_ok, List.nil_append]
    simp only [rolesAndPullsPure] at ih
    rw [ih]
    rfl



lemma cleanup_customers_ok_eq {env : Env} {cids : List Nat}
    {l1 l2 l3 : List (Except Err EntityId)} {cs : List String}
    (hs : env.store.sessionRes = .ok ())
    (h1 : env.store.orgUnitFindRes (customersQuery cids) = .ok l1)
    (h2 : env.store.orgFindRes (customersQuery cids) = .ok l2)
    (h3 : env.store.instFindRes (customersQuery cids) = .ok l3)
    (hc : env.store.collectionsRes = .ok cs)
    (hdm : ∀ c q, (env.store.deleteManyRes c q).isOk = true)
    (hdu : ∀ q, (env.store.deleteUsersRes q).isOk = true)
    (hcr : ∀ r, env.store.cleanupRolesRes r = .ok ())
    (hru : env.store.reloadUsersRes = .ok ())
    (hrc : env.store.reloadCustomerRes = .ok ())
    (hde : ∀ n c p, env.store.deleteEventRes n c p = .ok ())
    (hack : env.completeRes = .ok ()) :
    cleanup_customers env cids
      = (.ok (),
          [Op.session,
            .find env.store.organizationUnitCollection (customersQuery cids),
            .find env.store.organizationCollection (customersQuery cids),
            .find env.store.institutionCollection (customersQuery cids),
            .listCollections]
          ++ sweepTrace env.store (customersQuery cids) cs
          ++ [.cleanupRoles (customersRoles cids l1 l2 l3), .reloadUsers, .reloadCustomer]
          ++ (if env.store.hasProducer then
                [.deleteEvent .customer env.store.customerCollection (.customers cids)]
              else [])
          ++ [.complete]) := by
  have SW := sweep_ok (q := customersQuery cids) hdm hdu
  rcases hb : env.store.hasProducer
  all_goals
    simp only [cleanup_customers, cleanup_customers_pre, M.bind_eq, M.emit_eq, M.liftE_eq,
      M.pure_eq, hs, h1, h2, h3, hc, hcr, hru, hrc, hde, hack, hb, M.bind_ok,
      extend_roles_eq ouRoleCb h1, extend_roles_eq orgRoleCb h2, extend_roles_eq instRoleCb h3,
      SW, customersRoles, Bool.false_eq_true, if_false, if_true, List.nil_append,
      List.append_nil, List.cons_append, List.append_assoc]

lemma cleanup_organizations_ok_eq {env : Env} {oids : List StrictOrganizationId}
    {items : List (Except Err EntityId)} {insts : List EntityId}
    {l1 : List (Except Err EntityId)} {cs : List String}
    (hs : env.store.sessionRes = .ok ())
    (hi : env.store.instFindRes (organizationsQuery oids) = .ok items)
    (htc : tryCollect items = .ok insts)
    (hu : ∀ v, env.store.updateOrgUnitsRes v = .ok ())
    (h1 : env.store.orgUnitFindRes (organizationsQuery oids) = .ok l1)
    (hc : env.store.collectionsRes = .ok cs)
    (hdm : ∀ c q, (env.store.deleteManyRes c q).isOk = true)
    (hdu : ∀ q, (env.store.deleteUsersRes q).isOk = true)
    (hcr : ∀ r, env.store.cleanupRolesRes r = .ok ())
    (hru : env.store.reloadUsersRes = .ok ())
    (hrc : env.store.reloadCustomerRes = .ok ())
    (hde : ∀ n c p, env.store.deleteEventRes n c p = .ok ())
    (hack : env.completeRes = .ok ()) :
    cleanup_organizations env oids
      = (.ok (),
          [Op.session, .find env.store.institutionCollection (organizationsQuery oids)]
          ++ (insts.filterMap institutionTryIntoStrict).map
              (fun v => Op.pullMembers v.cid v.oid v.iid)
          ++ [.find env.store.organizationUnitCollection (organizationsQuery oids),
              .listCollections]
          ++ sweepTrace env.store (organizationsQuery oids) cs
          ++ [.cleanupRoles (organizationsRoles oids l1), .reloadUsers, .reloadCustomer]
          ++ (if env.store.hasProducer then
                [.deleteEvent .organization env.store.organizationCollection
                  (.cids (oids.map (fun v => v.cid)))]
              else [])
          ++ [.complete]) := by
  have SW := sweep_ok (q := organizationsQuery oids) hdm hdu
  rcases hb : env.store.hasProducer
  all_goals
    simp only [cleanup_organizations, cleanup_organizations_pre, M.bind_eq, M.emit_eq,
      M.liftE_eq, M.pure_eq, hs, hi, htc, h1, hc, hcr, hru, hrc, hde, hack, hb, M.bind_ok,
      extend_roles_eq ouRoleCb h1, pullAll_ok hu, SW, organizationsRoles,
      Bool.false_eq_true, if_false, if_true, List.nil_append,
      List.append_nil, List.cons_append, List.append_assoc]

lemma cleanup_institutions_ok_eq {env : Env} {iids : List StrictInstitutionId}
    {cs : List String}
    (hs : env.store.sessionRes = .ok ())
    (hu : ∀ v, env.store.updateOrgUnitsRes v = .ok ())
    (hc : env.store.collectionsRes = .ok cs)
    (hdm : ∀ c q, (env.store.deleteManyRes c q).isOk = true)
    (hdu : ∀ q, (env.store.deleteUsersRes q).isOk = true)
    (hcr : ∀ r, env.store.cleanupRolesRes r = .ok ())
    (hru : env.store.reloadUsersRes = .ok ())
    (hrc : env.store.reloadCustomerRes = .ok ())
    (hde : ∀ n c p, env.store.deleteEventRes n c p = .ok ())
    (hack : env.completeRes = .ok ()) :
    cleanup_institutions env iids
      = (.ok (),
          [Op.session]
          ++ iids.map (fun v => Op.pullMembers v.cid v.oid v.iid)
          ++ [.listCollections]
          ++ sweepTrace env.store (institutionsQuery iids) cs
          ++ [.cleanupRoles (rolesAndPullsPure iids []), .reloadUsers, .reloadCustomer]
          ++ (if env.store.hasProducer then
                [.deleteEvent .institution env.store.institutionCollection
                  (.institutions iids)]
              else [])
          ++ [.complete]) := by
  have SW := sweep_ok (q := institutionsQuery iids) hdm hdu
  rcases hb : env.store.hasProducer
  all_goals
    simp only [cleanup_institutions, cleanup_institutions_pre, M.bind_eq, M.emit_eq,
      M.liftE_eq, M.pure_eq, hs, hc, hcr, hru, hrc, hde, hack, hb, M.bind_ok,
      rolesAndPulls_ok hu, SW, Bool.false_eq_true, if_false, if_true, List.nil_append,
      List.append_nil, List.cons_append, List.append_assoc]

lemma cleanup_organization_units_ok_eq {env : Env} {uids : List StrictOrganizationUnitId}
    (hs : env.store.sessionRes = .ok ())
    (hdu : ∀ q, (env.store.deleteUsersRes q).isOk = true)
    (hcr : ∀ r, env.store.cleanupRolesRes r = .ok ())
    (hru : env.store.reloadUsersRes = .ok ())
    (hrc : env.store.reloadCustomerRes = .ok ())
    (hde : ∀ n c p, env.store.deleteEventRes n c p = .ok ())
    (hack : env.completeRes = .ok ()) :
    cleanup_organization_units env uids
      = (.ok (),
          [Op.session,
            .deleteMany env.store.usersCollection
              (rewriteUserQuery (organizationUnitsQuery uids)),
            .cleanupRoles (orgUnitsSeed uids), .reloadUsers, .reloadCustomer]
          ++ (if env.store.hasProducer then
                [.deleteEvent .organizationUnit env.store.organizationUnitCollection
                  (.orgUnits uids)]
              else [])
          ++ [.complete]) := by
  obtain ⟨n, hn⟩ :=
    except_isOk_exists (hdu (rewriteUserQuery (organizationUnitsQuery uids)))
  rcases hb : env.store.hasProducer
  all_goals
    simp only [cleanup_organization_units, cleanup_organization_units_pre, remove_users,
      M.bind_eq, M.emit_eq, M.liftE_eq, M.pure_eq, hs, hn, hcr, hru, hrc, hde, hack, hb,
      M.bind_ok, Bool.false_eq_true, if_false, if_true, List.nil_append,
      List.append_nil, List.cons_append, List.append_assoc]


/-! ## Acknowledge discipline and pull-before-delete ordering -/


lemma noComplete_customers_pre (s : StoreEnv) (cids : List Nat) :
    TraceAll (fun op => op ≠ Op.complete) (cleanup_customers_pre s cids) := by
  unfold cleanup_customers_pre
  repeat
    first
    | exact traceAll_pure
    | exact traceAll_liftE
    | exact traceAll_emit (fun h => Op.noConfusion h)
    | exact traceAll_sweep (fun c qq => fun h => Op.noConfusion h) _
    | exact traceAll_extend_roles (fun h => Op.noConfusion h)
    | refine traceAll_ite (s.hasProducer = true) ?_ ?_
    | refine traceAll_bind ?_ fun a => ?_

lemma noComplete_organizations_pre (s : StoreEnv) (oids : List StrictOrganizationId) :
    TraceAll (fun op => op ≠ Op.complete) (cleanup_organizations_pre s oids) := by
  unfold cleanup_organizations_pre
  repeat
    first
    | exact traceAll_pure
    | exact traceAll_liftE
    | exact traceAll_emit (fun h => Op.noConfusion h)
    | exact traceAll_sweep (fun c qq => fun h => Op.noConfusion h) _
    | exact traceAll_extend_roles (fun h => Op.noConfusion h)
    | exact traceAll_pullAll (fun a b c => fun h => Op.noConfusion h) _
    | refine traceAll_ite (s.hasProducer = true) ?_ ?_
    | refine traceAll_bind ?_ fun a => ?_

lemma noComplete_institutions_pre (s : StoreEnv) (iids : List StrictInstitutionId) :
    TraceAll (fun op => op ≠ Op.complete) (cleanup_institutions_pre s iids) := by
  unfold cleanup_institutions_pre
  repeat
    first
    | exact traceAll_pure
    | exact traceAll_liftE
    | exact traceAll_emit (fun h => Op.noConfusion h)
    | exact traceAll_sweep (fun c qq => fun h => Op.noConfusion h) _
    | exact traceAll_rolesAndPulls (fun a b c => fun h => Op.noConfusion h) _ _
    | refine traceAll_ite (s.hasProducer = true) ?_ ?_
    | refine traceAll_bind ?_ fun a => ?_

lemma noComplete_orgunits_pre (s : StoreEnv) (uids : List StrictOrganizationUnitId) :
    TraceAll (fun op => op ≠ Op.complete) (cleanup_organization_units_pre s uids) := by
  unfold cleanup_organization_units_pre
  repeat
    first
    | exact traceAll_pure
    | exact traceAll_liftE
    | exact traceAll_emit (fun h => Op.noConfusion h)
    | exact traceAll_remove_users (fun h => Op.noConfusion h)
    | refine traceAll_ite (s.hasProducer = true) ?_ ?_
    | refine traceAll_bind ?_ fun a => ?_



/-- C4: for every task type, the acknowledge (`worker_ctx.complete`) is
invoked exactly when every preceding step of the run succeeded (equivalently:
when the same run with an infallible acknowledge returns success); if any
step fails, the run aborts with that error propagated and the task is not
acknowledged. -/
theorem ack_iff_every_step_succeeds :
    ∀ (env : Env) (task : CleanupTask),
      (Op.complete ∈ (CleanupWorker.run env task).2
          ↔ (CleanupWorker.run ⟨env.store, .ok ()⟩ task).1 = .ok ())
      ∧ ((CleanupWorker.run ⟨env.store, .ok ()⟩ task).1 ≠ .ok () →
          (∃ e, (CleanupWorker.run env task).1 = .error e)
            ∧ Op.complete ∉ (CleanupWorker.run env task).2) := by
  intro env task
  rcases task with ⟨tid, ty⟩
  rcases ty with cids | oids | iids | uids | _
  · have hm : Op.complete ∉ (cleanup_customers_pre env.store cids).2 :=
      fun hmem => noComplete_customers_pre env.store cids _ hmem rfl
    have H := ack_shape (cleanup_customers_pre env.store cids) env.completeRes hm
    exact ⟨H.1.trans H.2.1.symm, fun hne => H.2.2 (fun hok => hne (H.2.1.mpr hok))⟩
  · have hm : Op.complete ∉ (cleanup_organizations_pre env.store oids).2 :=
      fun hmem => noComplete_organizations_pre env.store oids _ hmem rfl
    have H := ack_shape (cleanup_organizations_pre env.store oids) env.completeRes hm
    exact ⟨H.1.trans H.2.1.symm, fun hne => H.2.2 (fun hok => hne (H.2.1.mpr hok))⟩
  · have hm : Op.complete ∉ (cleanup_institutions_pre env.store iids).2 :=
      fun hmem => noComplete_institutions_pre env.store iids _ hmem rfl
    have H := ack_shape (cleanup_institutions_pre env.store iids) env.completeRes hm
    exact ⟨H.1.trans H.2.1.symm, fun hne => H.2.2 (fun hok => hne (H.2.1.mpr hok))⟩
  · have hm : Op.complete ∉ (cleanup_organization_units_pre env.store uids).2 :=
      fun hmem => noComplete_orgunits_pre env.store uids _ hmem rfl
    have H := ack_shape (cleanup_organization_units_pre env.store uids) env.completeRes hm
    exact ⟨H.1.trans H.2.1.symm, fun hne => H.2.2 (fun hok => hne (H.2.1.mpr hok))⟩
  · have H := ack_shape (pure ()) env.completeRes (fun hmem => nomatch hmem)
    exact ⟨H.1.trans H.2.1.symm, fun hne => H.2.2 (fun hok => hne (H.2.1.mpr hok))⟩



lemma pbd_bind_right {α β : Type} {x : M α} {f : α → M β}
    (hx : PullsBeforeDeletes x.2)
    (hf : ∀ a, TraceAll (fun op => isPull op = false) (f a)) :
    PullsBeforeDeletes (x >>= f).2 := by
  obtain ⟨t₁, t₂, ht, h₁, h₂⟩ := hx
  rcases hr : x.1 with e | a
  all_goals rw [M.snd_bind]
  all_goals simp only [hr]
  · exact ⟨t₁, t₂, by rw [List.append_nil, ht], h₁, h₂⟩
  · refine ⟨t₁, t₂ ++ (f a).2, by rw [ht, List.append_assoc], h₁, ?_⟩
    intro op hop
    rcases List.mem_append.mp hop with h | h
    exacts [h₂ _ h, hf a _ h]

lemma pbd_organizations (env : Env) (oids : List StrictOrganizationId) :
    PullsBeforeDeletes (cleanup_organizations env oids).2 := by
  unfold cleanup_organizations
  refine pbd_bind_right ?_ fun a => ?_
  case refine_2 =>
    exact traceAll_bind (traceAll_emit rfl) fun _ => traceAll_liftE
  unfold cleanup_organizations_pre
  refine pbd_bind (traceAll_emit rfl) fun _ => ?_
  refine pbd_bind traceAll_liftE fun _ => ?_
  refine pbd_bind (traceAll_emit rfl) fun _ => ?_
  refine pbd_bind traceAll_liftE fun _ => ?_
  refine pbd_bind traceAll_liftE fun _ => ?_
  have hp : ∀ l, TraceAll (fun op => isDelete op = false) (pullAll env.store l) :=
    fun l => traceAll_pullAll (fun a b c => by exact rfl) l
  refine pbd_bind (hp _) fun _ => ?_
  refine pbd_of_noPull ?_
  repeat
    first
    | exact traceAll_pure
    | exact traceAll_liftE
    | exact traceAll_emit (by exact rfl)
    | exact traceAll_sweep (fun c qq => by exact rfl) _
    | exact traceAll_extend_roles (by exact rfl)
    | refine traceAll_ite (env.store.hasProducer = true) ?_ ?_
    | refine traceAll_bind ?_ fun a => ?_

lemma pbd_institutions (env : Env) (iids : List StrictInstitutionId) :
    PullsBeforeDeletes (cleanup_institutions env iids).2 := by
  unfold cleanup_institutions
  refine pbd_bind_right ?_ fun a => ?_
  case refine_2 =>
    exact traceAll_bind (traceAll_emit rfl) fun _ => traceAll_liftE
  unfold cleanup_institutions_pre
  refine pbd_bind (traceAll_emit rfl) fun _ => ?_
  refine pbd_bind traceAll_liftE fun _ => ?_
  have hr : ∀ l roles,
      TraceAll (fun op => isDelete op = false) (rolesAndPulls env.store l roles) :=
    fun l roles => traceAll_rolesAndPulls (fun a b c => by exact rfl) l roles
  refine pbd_bind (hr _ _) fun _ => ?_
  refine pbd_of_noPull ?_
  repeat
    first
    | exact traceAll_pure
    | exact traceAll_liftE
    | exact traceAll_emit (by exact rfl)
    | exact traceAll_sweep (fun c qq => by exact rfl) _
    | refine traceAll_ite (env.store.hasProducer = true) ?_ ?_
    | refine traceAll_bind ?_ fun a => ?_


/-! ## Claim theorems: cleanup workflow -/


lemma sweepTrace_isDelete {s : StoreEnv} {q : Query} {cs : List String} {op : Op}
    (h : op ∈ sweepTrace s q cs) : isDelete op = true := by
  simp only [sweepTrace, List.mem_map] at h
  obtain ⟨c, _, rfl⟩ := h
  split <;> rfl

lemma pullMap_isPull {l : List StrictInstitutionId} {op : Op}
    (h : op ∈ l.map (fun v => Op.pullMembers v.cid v.oid v.iid)) : isPull op = true := by
  simp only [List.mem_map] at h
  obtain ⟨v, _, rfl⟩ := h
  rfl

lemma mem_sweepTrace_of_mem {s : StoreEnv} {q : Query} {cs : List String} {c : String}
    (hc : c ∈ cs) :
    (if c = s.usersCollection
      then Op.deleteMany s.usersCollection (rewriteUserQuery q)
      else Op.deleteMany c q) ∈ sweepTrace s q cs :=
  List.mem_map_of_mem _ hc

lemma filter_event_sweepTrace {s : StoreEnv} {q : Query} {cs : List String} :
    (sweepTrace s q cs).filter isEvent = [] := by
  rw [List.filter_eq_nil_iff]
  intro a ha
  have := sweepTrace_isDelete ha
  rcases a <;> simp_all [isDelete, isEvent]

lemma count_sweepTrace_eq_zero {s : StoreEnv} {q : Query} {cs : List String} {op : Op}
    (h : isDelete op = false) : (sweepTrace s q cs).count op = 0 := by
  rw [List.count_eq_zero]
  intro hmem
  rw [sweepTrace_isDelete hmem] at h
  exact Bool.noConfusion h

lemma filter_event_pullMap {l : List StrictInstitutionId} :
    (l.map (fun v => Op.pullMembers v.cid v.oid v.iid)).filter isEvent = [] := by
  rw [List.filter_eq_nil_iff]
  intro a ha
  have := pullMap_isPull ha
  rcases a <;> simp_all [isPull, isEvent]

lemma count_pullMap_eq_zero {l : List StrictInstitutionId} {op : Op}
    (h : isPull op = false) :
    (l.map (fun v => Op.pullMembers v.cid v.oid v.iid)).count op = 0 := by
  rw [List.count_eq_zero]
  intro hmem
  rw [pullMap_isPull hmem] at h
  exact Bool.noConfusion h




/-- C1 (amended): for the Customers, Organizations and Institutions task
types, a successful cleanup run enumerates every collection the store lists
and deletes matching documents from each — the users collection with every
query key `k` rewritten to `owner.entityId.k`, every other collection with
the direct ancestor-field query.  The OrganizationUnits task type does NOT
enumerate collections: its only document deletion is the users-collection
delete. -/
theorem cascade_sweep_collections :
    (∀ (env : Env) (cids : List Nat) (l1 l2 l3 : List (Except Err EntityId))
        (cs : List String),
        env.store.sessionRes = .ok () →
        env.store.orgUnitFindRes (customersQuery cids) = .ok l1 →
        env.store.orgFindRes (customersQuery cids) = .ok l2 →
        env.store.instFindRes (customersQuery cids) = .ok l3 →
        env.store.collectionsRes = .ok cs →
        (∀ c q, (env.store.deleteManyRes c q).isOk = true) →
        (∀ q, (env.store.deleteUsersRes q).isOk = true) →
        (∀ r, env.store.cleanupRolesRes r = .ok ()) →
        env.store.reloadUsersRes = .ok () →
        env.store.reloadCustomerRes = .ok () →
        (∀ n c p, env.store.deleteEventRes n c p = .ok ()) →
        env.completeRes = .ok () →
        ∀ c ∈ cs,
          (c = env.store.usersCollection →
            Op.deleteMany env.store.usersCollection
              (rewriteUserQuery (customersQuery cids)) ∈ (cleanup_customers env cids).2)
          ∧ (c ≠ env.store.usersCollection →
            Op.deleteMany c (customersQuery cids) ∈ (cleanup_customers env cids).2))
    ∧ (∀ (env : Env) (oids : List StrictOrganizationId)
        (items : List (Except Err EntityId)) (insts : List EntityId)
        (l1 : List (Except Err EntityId)) (cs : List String),
        env.store.sessionRes = .ok () →
        env.store.instFindRes (organizationsQuery oids) = .ok items →
        tryCollect items = .ok insts →
        (∀ v, env.store.updateOrgUnitsRes v = .ok ()) →
        env.store.orgUnitFindRes (organizationsQuery oids) = .ok l1 →
        env.store.collectionsRes = .ok cs →
        (∀ c q, (env.store.deleteManyRes c q).isOk = true) →
        (∀ q, (env.store.deleteUsersRes q).isOk = true) →
        (∀ r, env.store.cleanupRolesRes r = .ok ()) →
        env.store.reloadUsersRes = .ok () →
        env.store.reloadCustomerRes = .ok () →
        (∀ n c p, env.store.deleteEventRes n c p = .ok ()) →
        env.completeRes = .ok () →
        ∀ c ∈ cs,
          (c = env.store.usersCollection →
            Op.deleteMany env.store.usersCollection
              (rewriteUserQuery (organizationsQuery oids))
              ∈ (cleanup_organizations env oids).2)
          ∧ (c ≠ env.store.usersCollection →
            Op.deleteMany c (organizationsQuery oids) ∈ (cleanup_organizations env oids).2))
    ∧ (∀ (env : Env) (iids : List StrictInstitutionId) (cs : List String),
        env.store.sessionRes = .ok () →
        (∀ v, env.store.updateOrgUnitsRes v = .ok ()) →
        env.store.collectionsRes = .ok cs →
        (∀ c q, (env.store.deleteManyRes c q).isOk = true) →
        (∀ q, (env.store.deleteUsersRes q).isOk = true) →
        (∀ r, env.store.cleanupRolesRes r = .ok ()) →
        env.store.reloadUsersRes = .ok () →
        env.store.reloadCustomerRes = .ok () →
        (∀ n c p, env.store.deleteEventRes n c p = .ok ()) →
        env.completeRes = .ok () →
        ∀ c ∈ cs,
          (c = env.store.usersCollection →
            Op.deleteMany env.store.usersCollection
              (rewriteUserQuery (institutionsQuery iids))
              ∈ (cleanup_institutions env iids).2)
          ∧ (c ≠ env.store.usersCollection →
            Op.deleteMany c (institutionsQuery iids) ∈ (cleanup_institutions env iids).2))
    ∧ (∀ (env : Env) (uids : List StrictOrganizationUnitId) (op : Op),
        op ∈ (cleanup_organization_units env uids).2 → isDelete op = true →
        op = Op.deleteMany env.store.usersCollection
          (rewriteUserQuery (organizationUnitsQuery uids)))
    ∧ rewriteUserQuery (customersQuery [10]) = [("owner.entityId.cid", .inSet [10])] := by
  refine ⟨?_, ?_, ?_, ?_, by decide⟩
  · intro env cids l1 l2 l3 cs hs h1 h2 h3 hc hdm hdu hcr hru hrc hde hack c hcmem
    rw [cleanup_customers_ok_eq hs h1 h2 h3 hc hdm hdu hcr hru hrc hde hack]
    have hmem := mem_sweepTrace_of_mem (s := env.store) (q := customersQuery cids) hcmem
    constructor
    · intro hceq
      rw [if_pos hceq] at hmem
      apply List.mem_append_left
      apply List.mem_append_left
      apply List.mem_append_left
      exact List.mem_append_right _ hmem
    · intro hcne
      rw [if_neg hcne] at hmem
      apply List.mem_append_left
      apply List.mem_append_left
      apply List.mem_append_left
      exact List.mem_append_right _ hmem
  · intro env oids items insts l1 cs hs hi htc hu h1 hc hdm hdu hcr hru hrc hde hack c hcmem
    rw [cleanup_organizations_ok_eq hs hi htc hu h1 hc hdm hdu hcr hru hrc hde hack]
    have hmem := mem_sweepTrace_of_mem (s := env.store) (q := organizationsQuery oids) hcmem
    constructor
    · intro hceq
      rw [if_pos hceq] at hmem
      apply List.mem_append_left
      apply List.mem_append_left
      apply List.mem_append_left
      exact List.mem_append_right _ hmem
    · intro hcne
      rw [if_neg hcne] at hmem
      apply List.mem_append_left
      apply List.mem_append_left
      apply List.mem_append_left
      exact List.mem_append_right _ hmem
  · intro env iids cs hs hu hc hdm hdu hcr hru hrc hde hack c hcmem
    rw [cleanup_institutions_ok_eq hs hu hc hdm hdu hcr hru hrc hde hack]
    have hmem := mem_sweepTrace_of_mem (s := env.store) (q := institutionsQuery iids) hcmem
    constructor
    · intro hceq
      rw [if_pos hceq] at hmem
      apply List.mem_append_left
      apply List.mem_append_left
      apply List.mem_append_left
      exact List.mem_append_right _ hmem
    · intro hcne
      rw [if_neg hcne] at hmem
      apply List.mem_append_left
      apply List.mem_append_left
      apply List.mem_append_left
      exact List.mem_append_right _ hmem
  · intro env uids
    have T : TraceAll
        (fun op => isDelete op = true →
          op = Op.deleteMany env.store.usersCollection
            (rewriteUserQuery (organizationUnitsQuery uids)))
        (cleanup_organization_units env uids) := by
      unfold cleanup_organization_units cleanup_organization_units_pre
      repeat
        first
        | exact traceAll_pure
        | exact traceAll_liftE
        | exact traceAll_emit (by intro h; first | rfl | exact nomatch h)
        | exact traceAll_remove_users (by exact fun _ => rfl)
        | refine traceAll_ite (env.store.hasProducer = true) ?_ ?_
        | refine traceAll_bind ?_ fun a => ?_
        | simp only []
    exact fun op hop hdel => T op hop hdel


/-- C2 (amended): a successful cleanup run triggers exactly one reload per
cache and emits exactly one deletion event — for the task's own level's
namespace and collection, carrying the task's id set (for Organizations the
selected cid list) — when a mutation-event producer is configured, and none
otherwise.  There is no per-affected-collection fan-out. -/
theorem one_deletion_event_per_run :
    (∀ (env : Env) (cids : List Nat) (l1 l2 l3 : List (Except Err EntityId))
        (cs : List String),
        env.store.sessionRes = .ok () →
        env.store.orgUnitFindRes (customersQuery cids) = .ok l1 →
        env.store.orgFindRes (customersQuery cids) = .ok l2 →
        env.store.instFindRes (customersQuery cids) = .ok l3 →
        env.store.collectionsRes = .ok cs →
        (∀ c q, (env.store.deleteManyRes c q).isOk = true) →
        (∀ q, (env.store.deleteUsersRes q).isOk = true) →
        (∀ r, env.store.cleanupRolesRes r = .ok ()) →
        env.store.reloadUsersRes = .ok () →
        env.store.reloadCustomerRes = .ok () →
        (∀ n c p, env.store.deleteEventRes n c p = .ok ()) →
        env.completeRes = .ok () →
        ((cleanup_customers env cids).2.filter isEvent
            = if env.store.hasProducer then
                [Op.deleteEvent .customer env.store.customerCollection (.customers cids)]
              else [])
          ∧ (cleanup_customers env cids).2.count Op.reloadUsers = 1
          ∧ (cleanup_customers env cids).2.count Op.reloadCustomer = 1)
    ∧ (∀ (env : Env) (oids : List StrictOrganizationId)
        (items : List (Except Err EntityId)) (insts : List EntityId)
        (l1 : List (Except Err EntityId)) (cs : List String),
        env.store.sessionRes = .ok () →
        env.store.instFindRes (organizationsQuery oids) = .ok items →
        tryCollect items = .ok insts →
        (∀ v, env.store.updateOrgUnitsRes v = .ok ()) →
        env.store.orgUnitFindRes (organizationsQuery oids) = .ok l1 →
        env.store.collectionsRes = .ok cs →
        (∀ c q, (env.store.deleteManyRes c q).isOk = true) →
        (∀ q, (env.store.deleteUsersRes q).isOk = true) →
        (∀ r, env.store.cleanupRolesRes r = .ok ()) →
        env.store.reloadUsersRes = .ok () →
        env.store.reloadCustomerRes = .ok () →
        (∀ n c p, env.store.deleteEventRes n c p = .ok ()) →
        env.completeRes = .ok () →
        ((cleanup_organizations env oids).2.filter isEvent
            = if env.store.hasProducer then
                [Op.deleteEvent .organization env.store.organizationCollection
                  (.cids (oids.map (fun v => v.cid)))]
              else [])
          ∧ (cleanup_organizations env oids).2.count Op.reloadUsers = 1
          ∧ (cleanup_organizations env oids).2.count Op.reloadCustomer = 1)
    ∧ (∀ (env : Env) (iids : List StrictInstitutionId) (cs : List String),
        env.store.sessionRes = .ok () →
        (∀ v, env.store.updateOrgUnitsRes v = .ok ()) →
        env.store.collectionsRes = .ok cs →
        (∀ c q, (env.store.deleteManyRes c q).isOk = true) →
        (∀ q, (env.store.deleteUsersRes q).isOk = true) →
        (∀ r, env.store.cleanupRolesRes r = .ok ()) →
        env.store.reloadUsersRes = .ok () →
        env.store.reloadCustomerRes = .ok () →
        (∀ n c p, env.store.deleteEventRes n c p = .ok ()) →
        env.completeRes = .ok () →
        ((cleanup_institutions env iids).2.filter isEvent
            = if env.store.hasProducer then
                [Op.deleteEvent .institution env.store.institutionCollection
                  (.institutions iids)]
              else [])
          ∧ (cleanup_institutions env iids).2.count Op.reloadUsers = 1
          ∧ (cleanup_institutions env iids).2.count Op.reloadCustomer = 1)
    ∧ (∀ (env : Env) (uids : List StrictOrganizationUnitId),
        env.store.sessionRes = .ok () →
        (∀ q, (env.store.deleteUsersRes q).isOk = true) →
        (∀ r, env.store.cleanupRolesRes r = .ok ()) →
        env.store.reloadUsersRes = .ok () →
        env.store.reloadCustomerRes = .ok () →
        (∀ n c p, env.store.deleteEventRes n c p = .ok ()) →
        env.completeRes = .ok () →
        ((cleanup_organization_units env uids).2.filter isEvent
            = if env.store.hasProducer then
                [Op.deleteEvent .organizationUnit env.store.organizationUnitCollection
                  (.orgUnits uids)]
              else [])
          ∧ (cleanup_organization_units env uids).2.count Op.reloadUsers = 1
          ∧ (cleanup_organization_units env uids).2.count Op.reloadCustomer = 1) := by
  refine ⟨?_, ?_, ?_, ?_⟩
  · intro env cids l1 l2 l3 cs hs h1 h2 h3 hc hdm hdu hcr hru hrc hde hack
    rw [cleanup_customers_ok_eq hs h1 h2 h3 hc hdm hdu hcr hru hrc hde hack]
    rcases hb : env.store.hasProducer <;>
      simp [hb, List.filter_append, List.count_append, filter_event_sweepTrace,
        count_sweepTrace_eq_zero, isEvent, isDelete, List.count_cons, List.count_singleton]
  · intro env oids items insts l1 cs hs hi htc hu h1 hc hdm hdu hcr hru hrc hde hack
    rw [cleanup_organizations_ok_eq hs hi htc hu h1 hc hdm hdu hcr hru hrc hde hack]
    rcases hb : env.store.hasProducer <;>
      simp [hb, List.filter_append, List.count_append, filter_event_sweepTrace,
        count_sweepTrace_eq_zero, filter_event_pullMap, count_pullMap_eq_zero,
        isEvent, isDelete, isPull, List.count_cons, List.count_singleton]
  · intro env iids cs hs hu hc hdm hdu hcr hru hrc hde hack
    rw [cleanup_institutions_ok_eq hs hu hc hdm hdu hcr hru hrc hde hack]
    rcases hb : env.store.hasProducer <;>
      simp [hb, List.filter_append, List.count_append, filter_event_sweepTrace,
        count_sweepTrace_eq_zero, filter_event_pullMap, count_pullMap_eq_zero,
        isEvent, isDelete, isPull, List.count_cons, List.count_singleton]
  · intro env uids hs hdu hcr hru hrc hde hack
    rw [cleanup_organization_units_ok_eq hs hdu hcr hru hrc hde hack]
    rcases hb : env.store.hasProducer <;>
      simp [hb, List.filter_append, List.count_append, isEvent,
        List.count_cons, List.count_singleton]


/-- C5: in `cleanup_organizations` and `cleanup_institutions`, every
Organization Unit member pull (`$pull` of the matching `(cid, oid, iid)`
entry) happens strictly before every bulk document deletion, in every run;
and in a successful run a pull is issued for exactly the relevant
institutions: each convertible institution found under the deleted
organizations, resp. each deleted institution of the task. -/
theorem pulls_precede_bulk_deletion :
    (∀ (env : Env) (oids : List StrictOrganizationId) (i j : Nat)
        (hi : i < (cleanup_organizations env oids).2.length)
        (hj : j < (cleanup_organizations env oids).2.length),
        isPull ((cleanup_organizations env oids).2.get ⟨i, hi⟩) = true →
        isDelete ((cleanup_organizations env oids).2.get ⟨j, hj⟩) = true → i < j)
    ∧ (∀ (env : Env) (iids : List StrictInstitutionId) (i j : Nat)
        (hi : i < (cleanup_institutions env iids).2.length)
        (hj : j < (cleanup_institutions env iids).2.length),
        isPull ((cleanup_institutions env iids).2.get ⟨i, hi⟩) = true →
        isDelete ((cleanup_institutions env iids).2.get ⟨j, hj⟩) = true → i < j)
    ∧ (∀ (env : Env) (oids : List StrictOrganizationId)
        (items : List (Except Err EntityId)) (insts : List EntityId)
        (l1 : List (Except Err EntityId)) (cs : List String),
        env.store.sessionRes = .ok () →
        env.store.instFindRes (organizationsQuery oids) = .ok items →
        tryCollect items = .ok insts →
        (∀ v, env.store.updateOrgUnitsRes v = .ok ()) →
        env.store.orgUnitFindRes (organizationsQuery oids) = .ok l1 →
        env.store.collectionsRes = .ok cs →
        (∀ c q, (env.store.deleteManyRes c q).isOk = true) →
        (∀ q, (env.store.deleteUsersRes q).isOk = true) →
        (∀ r, env.store.cleanupRolesRes r = .ok ()) →
        env.store.reloadUsersRes = .ok () →
        env.store.reloadCustomerRes = .ok () →
        (∀ n c p, env.store.deleteEventRes n c p = .ok ()) →
        env.completeRes = .ok () →
        ∀ v ∈ insts.filterMap institutionTryIntoStrict,
          Op.pullMembers v.cid v.oid v.iid ∈ (cleanup_organizations env oids).2)
    ∧ (∀ (env : Env) (iids : List StrictInstitutionId) (cs : List String),
        env.store.sessionRes = .ok () →
        (∀ v, env.store.updateOrgUnitsRes v = .ok ()) →
        env.store.collectionsRes = .ok cs →
        (∀ c q, (env.store.deleteManyRes c q).isOk = true) →
        (∀ q, (env.store.deleteUsersRes q).isOk = true) →
        (∀ r, env.store.cleanupRolesRes r = .ok ()) →
        env.store.reloadUsersRes = .ok () →
        env.store.reloadCustomerRes = .ok () →
        (∀ n c p, env.store.deleteEventRes n c p = .ok ()) →
        env.completeRes = .ok () →
        ∀ v ∈ iids,
          Op.pullMembers v.cid v.oid v.iid ∈ (cleanup_institutions env iids).2) := by
  refine ⟨?_, ?_, ?_, ?_⟩
  · intro env oids
    exact pbd_index (pbd_organizations env oids)
  · intro env iids
    exact pbd_index (pbd_institutions env iids)
  · intro env oids items insts l1 cs hs hi htc hu h1 hc hdm hdu hcr hru hrc hde hack v hv
    rw [cleanup_organizations_ok_eq hs hi htc hu h1 hc hdm hdu hcr hru hrc hde hack]
    have hmem : Op.pullMembers v.cid v.oid v.iid
        ∈ (insts.filterMap institutionTryIntoStrict).map
            (fun v => Op.pullMembers v.cid v.oid v.iid) :=
      List.mem_map_of_mem _ hv
    apply List.mem_append_left
    apply List.mem_append_left
    apply List.mem_append_left
    apply List.mem_append_left
    apply List.mem_append_left
    exact List.mem_append_right _ hmem
  · intro env iids cs hs hu hc hdm hdu hcr hru hrc hde hack v hv
    rw [cleanup_institutions_ok_eq hs hu hc hdm hdu hcr hru hrc hde hack]
    have hmem : Op.pullMembers v.cid v.oid v.iid
        ∈ iids.map (fun v => Op.pullMembers v.cid v.oid v.iid) :=
      List.mem_map_of_mem _ hv
    apply List.mem_append_left
    apply List.mem_append_left
    apply List.mem_append_left
    apply List.mem_append_left
    apply List.mem_append_left
    exact List.mem_append_right _ hmem


/-- C1 (counterexample): the claim says EVERY task type enumerates every
collection and deletes from each; for an OrganizationUnits task against a
store whose collection list includes unrelated collections, the only
document deletion in the whole run is the users-collection delete. -/
theorem orgunit_cleanup_sweeps_only_users :
    cexStore.collectionsRes
        = .ok ["customers", "organizations", "institutions", "organization_units",
            "users", "foo"]
      ∧ (cleanup_organization_units cexEnv [⟨10, some 20, 40⟩]).1 = .ok ()
      ∧ ((cleanup_organization_units cexEnv [⟨10, some 20, 40⟩]).2.filter isDelete)
          = [Op.deleteMany "users"
              [("owner.entityId.cid", .arrEq [10]), ("owner.entityId.oid", .arrEq [40])]] := by
  refine ⟨by decide, by decide, by decide⟩

/-- C2 (counterexample): in the spec's cascade scenario (customer 10 with
organization 20, institution 30 and an institution-level user), the
successful `Customers([10])` run deletes from the organization, institution
and user collections but emits exactly ONE deletion event — for the customer
collection only — not one per affected collection. -/
theorem customer_cascade_emits_single_event :
    (cleanup_customers cexEnv [10]).1 = .ok ()
      ∧ Op.deleteMany "organizations" [("cid", .inSet [10])]
          ∈ (cleanup_customers cexEnv [10]).2
      ∧ Op.deleteMany "institutions" [("cid", .inSet [10])]
          ∈ (cleanup_customers cexEnv [10]).2
      ∧ Op.deleteMany "users" [("owner.entityId.cid", .inSet [10])]
          ∈ (cleanup_customers cexEnv [10]).2
      ∧ ((cleanup_customers cexEnv [10]).2.filter isEvent)
          = [Op.deleteEvent .customer "customers" (.customers [10])] := by
  refine ⟨by decide, by decide, by decide, by decide, by decide⟩

/-- C4 witness: in the all-success scenario the acknowledge happens, and
with a failing session open the run aborts with an error and no acknowledge,
both read off through the theorem. -/
theorem ack_iff_every_step_succeeds_witness :
    (Op.complete ∈ (CleanupWorker.run cexEnv ⟨0, .Customers [10]⟩).2)
      ∧ ((∃ e, (CleanupWorker.run cexFailEnv ⟨1, .Customers [10]⟩).1 = .error e)
          ∧ Op.complete ∉ (CleanupWorker.run cexFailEnv ⟨1, .Customers [10]⟩).2) :=
  ⟨(ack_iff_every_step_succeeds cexEnv ⟨0, .Customers [10]⟩).1.mpr (by decide),
    (ack_iff_every_step_succeeds cexFailEnv ⟨1, .Customers [10]⟩).2 (by decide)⟩

/-- C1 witness: the unrelated collection `"foo"` is swept with the direct
ancestor query by a successful Customers run, through the theorem. -/
theorem cascade_sweep_collections_witness :
    "foo" ≠ "users"
      ∧ Op.deleteMany "foo" (customersQuery [10]) ∈ (cleanup_customers cexEnv [10]).2 :=
  ⟨by decide,
    ((cascade_sweep_collections.1 cexEnv [10] _ _ _ _ rfl rfl rfl rfl rfl
      (fun _ _ => rfl) (fun _ => rfl) (fun _ => rfl) rfl rfl (fun _ _ _ => rfl) rfl
      "foo" (by decide)).2 (by decide))⟩

/-- C2 witness: the theorem applied to the concrete scenario run. -/
theorem one_deletion_event_per_run_witness :
    ((cleanup_customers cexEnv [10]).2.filter isEvent
        = if cexEnv.store.hasProducer then
            [Op.deleteEvent .customer cexEnv.store.customerCollection (.customers [10])]
          else [])
      ∧ (cleanup_customers cexEnv [10]).2.count Op.reloadUsers = 1 :=
  ⟨(one_deletion_event_per_run.1 cexEnv [10] _ _ _ _ rfl rfl rfl rfl rfl
      (fun _ _ => rfl) (fun _ => rfl) (fun _ => rfl) rfl rfl (fun _ _ _ => rfl) rfl).1,
    (one_deletion_event_per_run.1 cexEnv [10] _ _ _ _ rfl rfl rfl rfl rfl
      (fun _ _ => rfl) (fun _ => rfl) (fun _ => rfl) rfl rfl (fun _ _ _ => rfl) rfl).2.1⟩

/-- C5 witness: in the concrete scenario run for Organizations([10,20]), the
member pull at index 2 precedes the first bulk delete at index 5, and the
pull for the found institution (10,20,30) is in the trace — both through the
theorem. -/
theorem pulls_precede_bulk_deletion_witness :
    2 < 5
      ∧ Op.pullMembers 10 20 30 ∈ (cleanup_organizations cexEnv [⟨10, 20⟩]).2 := by
  constructor
  · exact pulls_precede_bulk_deletion.1 cexEnv [⟨10, 20⟩] 2 5
      (by decide) (by decide) (by decide) (by decide)
  · exact pulls_precede_bulk_deletion.2.2.1 cexEnv [⟨10, 20⟩] _ _ _ _ rfl rfl rfl
      (fun _ => rfl) rfl rfl (fun _ _ => rfl) (fun _ => rfl) (fun _ => rfl) rfl rfl
      (fun _ _ _ => rfl) rfl ⟨10, 20, 30⟩ (by decide)


end QM
